import Mathlib

/-!
# Layout engine of `MainComponent` (JUCE piano preview shell)

A shallow embedding of `MainComponent::resized` (Source/MainComponent.cpp) and of the
constants declared in Source/MainComponent.h, of `TitleComponent::resized`
(Source/TitleComponent.cpp), of the XL button's click handler, and of the selection state
and the layout of `SettingsPanelXLComponent` (Source/SettingsPanelXLComponent.cpp).

Modelling conventions.
* A C++ `float` is modelled by an exact rational (`ℚ`): every arithmetic operation of the
  source is taken without rounding error.  The two integer constants that the header derives
  by truncating float expressions (`minHeight`, `maxWidth`) are checked against IEEE binary32
  rounding (`roundBinary32`): they are 390 and 844 either way (`minHeight_binary32`,
  `maxWidth_binary32`).
* `static_cast<int>` on a float is truncation toward zero (`toInt`).
* `getWidth()` / `getHeight()` of a JUCE component are non-negative `int`s, modelled by `ℕ`.
* The only division whose divisor can be zero is `currentWidthPx / currentHeightPx`; its
  IEEE result (`+inf` or `NaN`) is only ever compared with `aspectRatio`, and that comparison
  is modelled by `divGt`.
* Calls into the JUCE library are modelled by what the library defines them to do:
  `setBounds` records the rectangle handed to it, `getLocalBounds` is (0, 0, width, height),
  `Component::setTransform` stores the transform, `AffineTransform::rotation` and
  `transformPoint` are the library's matrix formulas, with `std::cos (-pi / 2)` and
  `std::sin (-pi / 2)` taken at their exact values 0 and -1.
-/

namespace MainComponent

/-- The cast `static_cast<int>(q)` of a float: truncation toward zero. -/
def toInt (q : ℚ) : ℤ := if 0 ≤ q then ⌊q⌋ else ⌈q⌉

/-- The float comparison `a / b > c`, with IEEE semantics when `b` is zero:
`a / 0` is `+inf` for `a > 0` (the comparison holds) and `NaN` or `-inf` otherwise
(the comparison fails). -/
def divGt (a b c : ℚ) : Bool := if b = 0 then decide (0 < a) else decide (c < a / b)

/-- Round-to-nearest, ties-to-even, onto the IEEE binary32 grid (24-bit significand) for
values in the normal range: the result of a single `float` operation whose exact value
is `q`. -/
def roundBinary32 (q : ℚ) : ℚ :=
  if q = 0 then 0 else
    let e : ℤ := Int.log 2 |q|
    let ulp : ℚ := (2 : ℚ) ^ (e - 23)
    let n : ℚ := |q| / ulp
    let f : ℤ := ⌊n⌋
    let r : ℚ := n - f
    let k : ℤ := if r < 1 / 2 then f else if 1 / 2 < r then f + 1
      else if f % 2 = 0 then f else f + 1
    (if q < 0 then -1 else 1) * (k : ℚ) * ulp

/-! ## Constants of MainComponent.h -/

/-- Member `baseWidth = 844.0f`. -/
def baseWidth : ℚ := 844
/-- Member `baseHeight = 390.0f`. -/
def baseHeight : ℚ := 390
/-- Member `aspectRatio = baseWidth / baseHeight`. -/
def aspectRatio : ℚ := baseWidth / baseHeight
/-- Member `minWidth = 844`. -/
def minWidth : ℤ := 844
/-- Member `minHeight = static_cast<int>(minWidth / aspectRatio)`. -/
def minHeight : ℤ := toInt ((minWidth : ℚ) / aspectRatio)
/-- Member `maxWidth = static_cast<int>(390.0f * aspectRatio)`. -/
def maxWidth : ℤ := toInt (390 * aspectRatio)
/-- Member `maxHeight = 390`. -/
def maxHeight : ℤ := 390

/-! ## The content fit (MainComponent.cpp, lines 130-171) -/

/-- The pair `(newContentWidth, newContentHeight)` threaded through the fit. -/
structure ContentSize where
  width : ℚ
  height : ℚ
deriving DecidableEq, Repr

/-- Lines 137-146: choice of the dominant dimension. -/
def dominantDimension (ar W H : ℚ) : ContentSize :=
  if divGt W H ar then
    { height := H, width := H * ar }
  else
    { width := W, height := W / ar }

/-- Lines 149-153: the width floor. -/
def clampMinWidth (ar : ℚ) (minW : ℤ) (c : ContentSize) : ContentSize :=
  if c.width < (minW : ℚ) then
    { width := (minW : ℚ), height := (minW : ℚ) / ar }
  else c

/-- Lines 155-159: the height floor. -/
def clampMinHeight (ar : ℚ) (minH : ℤ) (c : ContentSize) : ContentSize :=
  if c.height < (minH : ℚ) ∧ minH > 0 then
    { height := (minH : ℚ), width := (minH : ℚ) * ar }
  else c

/-- Lines 161-165: the height ceiling. -/
def clampMaxHeight (ar : ℚ) (maxH : ℤ) (c : ContentSize) : ContentSize :=
  if c.height > (maxH : ℚ) then
    { height := (maxH : ℚ), width := (maxH : ℚ) * ar }
  else c

/-- Lines 167-171: the width ceiling. -/
def clampMaxWidth (ar : ℚ) (maxW : ℤ) (c : ContentSize) : ContentSize :=
  if c.width > (maxW : ℚ) ∧ maxW > 0 then
    { width := (maxW : ℚ), height := (maxW : ℚ) / ar }
  else c

/-- Lines 130-171 with the aspect ratio and the four bounds as parameters. -/
def fitWith (ar : ℚ) (minW minH maxW maxH : ℤ) (W H : ℚ) : ContentSize :=
  clampMaxWidth ar maxW
    (clampMaxHeight ar maxH
      (clampMinHeight ar minH
        (clampMinWidth ar minW (dominantDimension ar W H))))

/-- Lines 130-171 as `resized` runs them: the final `(newContentWidth, newContentHeight)`
for a component of `getWidth() = W`, `getHeight() = H`. -/
def fit (W H : ℕ) : ContentSize :=
  fitWith aspectRatio minWidth minHeight maxWidth maxHeight (W : ℚ) (H : ℚ)

/-! ## Content rectangle and scale factor (lines 182-196) -/

/-- A `juce::Rectangle<int>` / the bounds of a component: position and size. -/
structure Rect where
  x : ℤ
  y : ℤ
  width : ℤ
  height : ℤ
deriving DecidableEq, Repr

/-- `Rectangle::getRight()`. -/
def Rect.getRight (r : Rect) : ℤ := r.x + r.width

/-- `Rectangle<int>::getCentreY()`: `y + h / 2` in C++ integer division. -/
def Rect.getCentreY (r : Rect) : ℤ := r.y + Int.tdiv r.height 2

/-- The four float expressions handed to a `setBounds` call, before the casts. -/
structure FloatRect where
  x : ℚ
  y : ℚ
  width : ℚ
  height : ℚ
deriving DecidableEq, Repr

/-- The call `setBounds(static_cast<int>(x), static_cast<int>(y), static_cast<int>(w),
static_cast<int>(h))`: the rectangle that results from the four casts. -/
def setBounds (r : FloatRect) : Rect :=
  { x := toInt r.x, y := toInt r.y, width := toInt r.width, height := toInt r.height }

/-- Local `xOffset = 170.0f`. -/
def xOffset : ℚ := 170
/-- Local `yOffset = 145.0f`. -/
def yOffset : ℚ := 145

/-- Lines 186-188: `contentBounds` after `contentBounds.setBounds(contentX, contentY, ...)`. -/
def contentBounds (W H : ℕ) : Rect :=
  let newContentWidth := (fit W H).width
  let newContentHeight := (fit W H).height
  let contentX := toInt (((W : ℚ) - newContentWidth) / 2 + xOffset)
  let contentY := toInt (((H : ℚ) - newContentHeight) / 2 + yOffset)
  { x := contentX, y := contentY, width := toInt newContentWidth, height := toInt newContentHeight }

/-- Line 190: `scaleFactor = contentBounds.getWidth() / baseWidth`. -/
def scaleFactor (W H : ℕ) : ℚ := ((contentBounds W H).width : ℚ) / baseWidth

/-- Local `pianoContainerOrigX = -124.0f`. -/
def pianoContainerOrigX : ℚ := -124
/-- Local `pianoContainerOrigY = 78.0f`. -/
def pianoContainerOrigY : ℚ := 78

/-- Lines 195-196: `pianoAreaTopLeft`, as the pair `(getX(), getY())`. -/
def pianoAreaTopLeft (W H : ℕ) : ℚ × ℚ :=
  (((contentBounds W H).x : ℚ) + pianoContainerOrigX * scaleFactor W H,
   ((contentBounds W H).y : ℚ) + pianoContainerOrigY * scaleFactor W H)

/-! ## White keys (lines 198-223) -/

/-- Local `whiteKeyOrigWidth = 72.0f`. -/
def whiteKeyOrigWidth : ℚ := 72
/-- Local `whiteKeyOrigHeight = 129.0f`. -/
def whiteKeyOrigHeight : ℚ := 129
/-- Local `whiteKeyOrigMarginH = 13.5f`. -/
def whiteKeyOrigMarginH : ℚ := 27 / 2
/-- Local `whiteKeysRowPaddingH = 20.0f`. -/
def whiteKeysRowPaddingH : ℚ := 20
/-- Local `whiteKeysRowTranslateY = 10.0f`. -/
def whiteKeysRowTranslateY : ℚ := 10
/-- The constructor pushes seven keys into `whiteKeys` (lines 14-20). -/
def whiteKeyCount : ℕ := 7

/-- The loop of lines 215-223 run for `n` keys from the cursor value `currentWhiteKeyX`:
the float arguments of each `setBounds` call in order, and the cursor after the loop. -/
def whiteKeyLoop (scaledKeyWidth scaledKeyHeight scaledMarginH whiteKeysY : ℚ) :
    ℕ → ℚ → List FloatRect × ℚ
  | 0, currentWhiteKeyX => ([], currentWhiteKeyX)
  | n + 1, currentWhiteKeyX =>
    let key : FloatRect :=
      { x := currentWhiteKeyX + scaledMarginH, y := whiteKeysY,
        width := scaledKeyWidth, height := scaledKeyHeight }
    let rest := whiteKeyLoop scaledKeyWidth scaledKeyHeight scaledMarginH whiteKeysY n
      (currentWhiteKeyX + (scaledKeyWidth + scaledMarginH * 2))
    (key :: rest.1, rest.2)

/-- Lines 207-223 for a row of `n` items of design width `w`, design height `h`, design
margin `m` and row padding `pad`, at scale `s`, from the row origin `(ox, oy)` with the
row translation `ty`. -/
def packRow (n : ℕ) (w h m pad ty s ox oy : ℚ) : List FloatRect × ℚ :=
  let scaledKeyWidth := w * s
  let scaledKeyHeight := h * s
  let scaledMarginH := m * s
  let currentWhiteKeyX := ox + pad * s
  let whiteKeysY := oy + ty * s
  whiteKeyLoop scaledKeyWidth scaledKeyHeight scaledMarginH whiteKeysY n currentWhiteKeyX

/-- Lines 207-223 as `resized` runs them: the unrounded `setBounds` arguments of the seven
white keys and the final value of `currentWhiteKeyX`. -/
def whiteKeysRow (W H : ℕ) : List FloatRect × ℚ :=
  packRow whiteKeyCount whiteKeyOrigWidth whiteKeyOrigHeight whiteKeyOrigMarginH
    whiteKeysRowPaddingH whiteKeysRowTranslateY (scaleFactor W H)
    (pianoAreaTopLeft W H).1 (pianoAreaTopLeft W H).2

/-- The float arguments of the `setBounds` call of white key `i`. -/
def whiteKeyArgs (W H : ℕ) (i : ℕ) : Option FloatRect := (whiteKeysRow W H).1.get? i

/-- The bounds that white key `i` receives. -/
def whiteKeyBounds (W H : ℕ) (i : ℕ) : Option Rect := (whiteKeyArgs W H i).map setBounds

/-! ## Black keys (lines 225-270) -/

/-- Member `blackKeyNotes`; the empty name marks the placeholder slot. -/
def blackKeyNotes : List String := ["C#", "D#", "", "F#", "G#", "A#"]
/-- Local `blackKeyOrigWidth = 72.0f`. -/
def blackKeyOrigWidth : ℚ := 72
/-- Local `blackKeyOrigHeight = 129.0f`. -/
def blackKeyOrigHeight : ℚ := 129
/-- Local `blackKeyOrigMarginH = 13.5f`. -/
def blackKeyOrigMarginH : ℚ := 27 / 2
/-- Local `blackKeyPlaceholderOrigWidth = 99.0f`. -/
def blackKeyPlaceholderOrigWidth : ℚ := 99
/-- Local `blackKeysRowOrigTop = -128.0f`. -/
def blackKeysRowOrigTop : ℚ := -128
/-- Local `blackKeysRowOrigLeft = -3.0f`. -/
def blackKeysRowOrigLeft : ℚ := -3
/-- Local `blackKeysExtraOffset = 50.0f`. -/
def blackKeysExtraOffset : ℚ := 50
/-- Local `blackKeysUpOffset = 18.0f`. -/
def blackKeysUpOffset : ℚ := 18

/-- The constructor (lines 24-33) pushes one key into `blackKeys` per non-empty name. -/
def blackKeyCount : ℕ := (blackKeyNotes.filter (fun noteName => decide (noteName ≠ ""))).length

/-- The loop of lines 251-270 over the remaining names, from instance index
`blackKeyInstanceIdx` and cursor `blackKeysCurrentX`, with `size = blackKeys.size()`:
the pairs (instance index, float arguments of its `setBounds` call) in order, and the
cursor after the loop. -/
def blackKeyLoop (scaledBlackKeyWidth scaledBlackKeyHeight scaledBlackKeyMarginH
    scaledBlackKeyPlaceholderWidth blackKeysY : ℚ) (size : ℕ) :
    List String → ℕ → ℚ → List (ℕ × FloatRect) × ℚ
  | [], _, blackKeysCurrentX => ([], blackKeysCurrentX)
  | noteName :: names, blackKeyInstanceIdx, blackKeysCurrentX =>
    if noteName ≠ "" then
      if blackKeyInstanceIdx < size then
        let key : FloatRect :=
          { x := blackKeysCurrentX + scaledBlackKeyMarginH, y := blackKeysY,
            width := scaledBlackKeyWidth, height := scaledBlackKeyHeight }
        let rest := blackKeyLoop scaledBlackKeyWidth scaledBlackKeyHeight scaledBlackKeyMarginH
          scaledBlackKeyPlaceholderWidth blackKeysY size names (blackKeyInstanceIdx + 1)
          (blackKeysCurrentX + (scaledBlackKeyWidth + scaledBlackKeyMarginH * 2))
        ((blackKeyInstanceIdx, key) :: rest.1, rest.2)
      else
        blackKeyLoop scaledBlackKeyWidth scaledBlackKeyHeight scaledBlackKeyMarginH
          scaledBlackKeyPlaceholderWidth blackKeysY size names blackKeyInstanceIdx
          blackKeysCurrentX
    else
      blackKeyLoop scaledBlackKeyWidth scaledBlackKeyHeight scaledBlackKeyMarginH
        scaledBlackKeyPlaceholderWidth blackKeysY size names blackKeyInstanceIdx
        (blackKeysCurrentX + scaledBlackKeyPlaceholderWidth)

/-- Lines 246-247: the start value of `blackKeysCurrentX`. -/
def blackKeysStartX (W H : ℕ) : ℚ :=
  (pianoAreaTopLeft W H).1 + whiteKeysRowPaddingH * scaleFactor W H
    + blackKeysRowOrigLeft * scaleFactor W H + blackKeysExtraOffset

/-- Lines 248-249: `blackKeysY`. -/
def blackKeysY (W H : ℕ) : ℚ :=
  (pianoAreaTopLeft W H).2 + whiteKeysRowTranslateY * scaleFactor W H
    + blackKeysRowOrigTop * scaleFactor W H - blackKeysUpOffset * scaleFactor W H

/-- Lines 240-270 as `resized` runs them: the `setBounds` arguments per black-key instance
and the final value of `blackKeysCurrentX`. -/
def blackKeysRow (W H : ℕ) : List (ℕ × FloatRect) × ℚ :=
  blackKeyLoop (blackKeyOrigWidth * scaleFactor W H) (blackKeyOrigHeight * scaleFactor W H)
    (blackKeyOrigMarginH * scaleFactor W H) (blackKeyPlaceholderOrigWidth * scaleFactor W H)
    (blackKeysY W H) blackKeyCount blackKeyNotes 0 (blackKeysStartX W H)

/-! ## Title block, fader and buttons (lines 272-331) -/

/-- `TitleComponent::getOriginalUnrotatedWidth()` for a measured text width
`titleTextWidth` (the glyph bounding box of "PIANO"): text + `internalPadding` (10) +
`xlButtonWidth` (78). -/
def getOriginalUnrotatedWidth (titleTextWidth : ℚ) : ℚ := titleTextWidth + 10 + 78

/-- `TitleComponent::getOriginalUnrotatedHeight()`: `std::max(titleFontSize, xlButtonHeight)`. -/
def getOriginalUnrotatedHeight : ℚ := max 23 47

/-- Lines 273-283: the float arguments of `titleComponent.setBounds`. -/
def titleArgs (W H : ℕ) (titleTextWidth : ℚ) : FloatRect :=
  let titleScaledX := (-71 : ℚ) * scaleFactor W H
  let titleScaledY := (-50 : ℚ) * scaleFactor W H
  { x := (pianoAreaTopLeft W H).1 + titleScaledX,
    y := (pianoAreaTopLeft W H).2 + titleScaledY,
    width := getOriginalUnrotatedWidth titleTextWidth * scaleFactor W H,
    height := getOriginalUnrotatedHeight * scaleFactor W H }

/-- Line 303: `buttonWidth`. -/
def buttonWidth (W H : ℕ) : ℚ := 40 * scaleFactor W H
/-- Line 304: `buttonHeight`. -/
def buttonHeight (W H : ℕ) : ℚ := 140 * scaleFactor W H
/-- Line 305: `buttonSpacing`. -/
def buttonSpacing (W H : ℕ) : ℚ := 10 * scaleFactor W H

/-- Line 308: `buttonsX`. -/
def buttonsX (W H : ℕ) : ℚ :=
  ((contentBounds W H).getRight : ℚ) - (buttonWidth W H + 20) - 160 * scaleFactor W H

/-- Lines 292-320: the float arguments of `verticalFader.setBounds`. -/
def faderArgs (W H : ℕ) : FloatRect :=
  let faderOrigHeight : ℚ := 9265 / 100
  let faderOrigWidth : ℚ := 20
  let faderWrapperLeft := buttonsX W H - 65 * scaleFactor W H
  let faderActualLeft := faderWrapperLeft
  let faderActualTop := blackKeysY W H + 20 * scaleFactor W H
  { x := faderActualLeft, y := faderActualTop,
    width := faderOrigWidth * scaleFactor W H, height := faderOrigHeight * scaleFactor W H }

/-- Line 321: `buttonsStartY`. -/
def buttonsStartY (W H : ℕ) : ℚ :=
  ((contentBounds W H).getCentreY : ℚ) - (buttonHeight W H + buttonSpacing W H / 2)
    - 114 * scaleFactor W H

/-- Lines 323-326: the float arguments of `plusButton.setBounds`. -/
def plusButtonArgs (W H : ℕ) : FloatRect :=
  { x := buttonsX W H, y := buttonsStartY W H,
    width := buttonWidth W H, height := buttonHeight W H }

/-- Lines 328-331: the float arguments of `minusButton.setBounds`. -/
def minusButtonArgs (W H : ℕ) : FloatRect :=
  { x := buttonsX W H, y := buttonsStartY W H + buttonHeight W H + buttonSpacing W H,
    width := buttonWidth W H, height := buttonHeight W H }

/-- Lines 299-300: `blackKeyContentAreaRightAbsolute = blackKeysCurrentX`, the cursor after
the black-key loop. -/
def blackKeyContentAreaRightAbsolute (W H : ℕ) : ℚ := (blackKeysRow W H).2

/-- The bounds that `titleComponent` holds after the `setBounds` call of lines 280-283. -/
def titleBounds (W H : ℕ) (titleTextWidth : ℚ) : Rect := setBounds (titleArgs W H titleTextWidth)

/-! ## The title rotation (lines 285-289) -/

/-- A `juce::AffineTransform`: the matrix (mat00 mat01 mat02; mat10 mat11 mat12; 0 0 1). -/
structure AffineTransform where
  mat00 : ℚ
  mat01 : ℚ
  mat02 : ℚ
  mat10 : ℚ
  mat11 : ℚ
  mat12 : ℚ
deriving DecidableEq, Repr

/-- JUCE library `AffineTransform::rotation (rad, pivotX, pivotY)`, given the values
`cosRad = std::cos (rad)` and `sinRad = std::sin (rad)` that it computes first. -/
def AffineTransform.rotation (cosRad sinRad pivotX pivotY : ℚ) : AffineTransform :=
  { mat00 := cosRad, mat01 := -sinRad,
    mat02 := -cosRad * pivotX + sinRad * pivotY + pivotX,
    mat10 := sinRad, mat11 := cosRad,
    mat12 := -sinRad * pivotX + -cosRad * pivotY + pivotY }

/-- JUCE library `AffineTransform::transformPoint (x, y)`. -/
def AffineTransform.transformPoint (t : AffineTransform) (x y : ℚ) : ℚ × ℚ :=
  (t.mat00 * x + t.mat01 * y + t.mat02, t.mat10 * x + t.mat11 * y + t.mat12)

/-- The exact value of `std::cos (-pi / 2)`. -/
def cosMinusHalfPi : ℚ := 0
/-- The exact value of `std::sin (-pi / 2)`. -/
def sinMinusHalfPi : ℚ := -1

/-- The x pivot of line 287: `titleComponent.getX() + titleComponent.getWidth() / 2.0f`. -/
def titleCentreX (W H : ℕ) (titleTextWidth : ℚ) : ℚ :=
  ((titleBounds W H titleTextWidth).x : ℚ) + ((titleBounds W H titleTextWidth).width : ℚ) / 2

/-- The y pivot of line 288: `titleComponent.getY() + titleComponent.getHeight() / 2.0f`. -/
def titleCentreY (W H : ℕ) (titleTextWidth : ℚ) : ℚ :=
  ((titleBounds W H titleTextWidth).y : ℚ) + ((titleBounds W H titleTextWidth).height : ℚ) / 2

/-- Lines 286-288: `titleTransform`, the rotation by `-pi / 2` about the centre of the
bounds just given to the title component. -/
def titleTransform (W H : ℕ) (titleTextWidth : ℚ) : AffineTransform :=
  AffineTransform.rotation cosMinusHalfPi sinMinusHalfPi
    (titleCentreX W H titleTextWidth) (titleCentreY W H titleTextWidth)

/-- The four corners of a rectangle: top-left, top-right, bottom-left, bottom-right. -/
def Rect.corners (r : Rect) : List (ℚ × ℚ) :=
  [((r.x : ℚ), (r.y : ℚ)), ((r.x : ℚ) + r.width, (r.y : ℚ)),
   ((r.x : ℚ), (r.y : ℚ) + r.height), ((r.x : ℚ) + r.width, (r.y : ℚ) + r.height)]

/-! ## Lines 125-190 as a step on the member state -/

/-- The mutable members that lines 125-190 read or write: `contentBounds` and the bounds of
the child `settingsPanel`. -/
structure Members where
  contentBounds : Rect
  settingsPanel : Rect
deriving DecidableEq, Repr

/-- The values of the content fit computed by lines 125-190. -/
structure ContentFit where
  newContentWidth : ℚ
  newContentHeight : ℚ
  contentX : ℤ
  contentY : ℤ
  scaleFactor : ℚ
deriving DecidableEq, Repr

/-- Lines 125-190 run on the member state `m` with `getWidth() = W`, `getHeight() = H`:
the member state afterwards and the values computed.  The settings panel is re-centred
with its own current size (lines 173-180). -/
def resizedContentFit (m : Members) (W H : ℕ) : Members × ContentFit :=
  let currentWidthPx : ℚ := (W : ℚ)
  let currentHeightPx : ℚ := (H : ℚ)
  let c := fitWith aspectRatio minWidth minHeight maxWidth maxHeight currentWidthPx
    currentHeightPx
  let settingsPanelY : ℚ := 20
  let m1 : Members :=
    { m with settingsPanel :=
        { x := toInt ((currentWidthPx - (m.settingsPanel.width : ℚ)) / 2),
          y := toInt settingsPanelY,
          width := m.settingsPanel.width, height := m.settingsPanel.height } }
  let contentX := toInt ((currentWidthPx - c.width) / 2 + xOffset)
  let contentY := toInt ((currentHeightPx - c.height) / 2 + yOffset)
  let m2 : Members :=
    { m1 with contentBounds :=
        { x := contentX, y := contentY, width := toInt c.width, height := toInt c.height } }
  let scaleFactor := (m2.contentBounds.width : ℚ) / baseWidth
  (m2, { newContentWidth := c.width, newContentHeight := c.height,
         contentX := contentX, contentY := contentY, scaleFactor := scaleFactor })

end MainComponent

/-! # TitleComponent (Source/TitleComponent.cpp) -/

namespace TitleComponent

open MainComponent (Rect FloatRect toInt setBounds AffineTransform)

/-- Member `xlButtonWidth = 78.0f`. -/
def xlButtonWidth : ℚ := 78
/-- Member `xlButtonHeight = 47.0f`. -/
def xlButtonHeight : ℚ := 47
/-- Member `internalPadding = 10.0f`. -/
def internalPadding : ℚ := 10

/-- The title component as its parent and its own `resized` see it: its bounds in the
parent, the transform set on it, and the bounds stored in its two children. -/
structure State where
  bounds : Rect
  transform : AffineTransform
  xlButton : Rect
  titleLabel : Rect
deriving DecidableEq, Repr

/-- JUCE `Component::getLocalBounds()`: the rectangle (0, 0, getWidth(), getHeight()). -/
def getLocalBounds (t : State) : Rect :=
  { x := 0, y := 0, width := t.bounds.width, height := t.bounds.height }

/-- `TitleComponent::resized` (lines 113-140): the bounds given to `xlButton` and
`titleLabel`. -/
def resized (t : State) : State :=
  let localBounds := getLocalBounds t
  let xlButtonBounds : Rect :=
    setBounds
      { x := (localBounds.width : ℚ) - xlButtonWidth,
        y := ((localBounds.height : ℚ) - xlButtonHeight) / 2,
        width := xlButtonWidth, height := xlButtonHeight }
  let titleLabelBounds : Rect :=
    { x := 0, y := 0,
      width := toInt ((localBounds.width : ℚ) - xlButtonWidth - internalPadding),
      height := localBounds.height }
  { t with xlButton := xlButtonBounds, titleLabel := titleLabelBounds }

/-- JUCE `Component::setTransform`: the component keeps the transform for painting and
hit-testing; bounds are not touched. -/
def setTransform (m : AffineTransform) (t : State) : State := { t with transform := m }

end TitleComponent

/-! # SettingsPanelXLComponent: selection state and layout (Source/SettingsPanelXLComponent.cpp) -/

namespace SettingsPanelXLComponent

open MainComponent (Rect FloatRect toInt setBounds)

/-- The members that `toggleSelection` and `setInversionValue` read or write, and the calls
made so far on the registered listeners, oldest first, each with its arguments
`(isSelected, value)`. -/
structure State where
  selectedControl : String
  isInversionSelected : Bool
  currentInversionValue : ℤ
  notifications : List (Bool × ℤ)
deriving DecidableEq, Repr

/-- The state after construction: `selectedControl` empty, `isInversionSelected = false`,
`currentInversionValue = 0`, no listener called yet. -/
def initial : State :=
  { selectedControl := "", isInversionSelected := false, currentInversionValue := 0,
    notifications := [] }

/-- `listeners.call (... l.inversionSelectionChanged (isSelected, currentInversionValue))`. -/
def broadcast (isSelected : Bool) (s : State) : State :=
  { s with notifications := s.notifications ++ [(isSelected, s.currentInversionValue)] }

/-- `SettingsPanelXLComponent::toggleSelection` (lines 145-168), without the repainting of
the labels that follows. -/
def toggleSelection (control : String) (s : State) : State :=
  if s.selectedControl = control then
    let s1 := { s with selectedControl := "" }
    if control = "inversion" then
      broadcast false { s1 with isInversionSelected := false }
    else s1
  else
    let s1 := { s with selectedControl := control }
    if control = "inversion" then
      broadcast true { s1 with isInversionSelected := true }
    else s1

/-- `SettingsPanelXLComponent::setInversionValue` (lines 212-225), without the update of the
label text. -/
def setInversionValue (newValue : ℤ) (s : State) : State :=
  if s.currentInversionValue ≠ newValue then
    let s1 := { s with currentInversionValue := newValue }
    if s1.isInversionSelected then broadcast true s1 else s1
  else s

/-! ## The panel layout (`SettingsPanelXLComponent::resized`, lines 262-354) -/

/-- Member `panelHeight = 55.0f`. -/
def panelHeight : ℚ := 55
/-- Member `circularButtonSize = 42.57f`. -/
def circularButtonSize : ℚ := 4257 / 100
/-- Local `padding = 11.0f`. -/
def padding : ℚ := 11
/-- Local `comboWidth = 132.0f`. -/
def comboWidth : ℚ := 132
/-- Local `comboHeight = 50.6f`. -/
def comboHeight : ℚ := 506 / 10
/-- Local `comboY = (panelHeight - comboHeight) / 2`. -/
def comboY : ℚ := (panelHeight - comboHeight) / 2
/-- Local `keyWidth = 66.0f`. -/
def keyWidth : ℚ := 66
/-- Local `labelHeight = 16.5f`. -/
def labelHeight : ℚ := 33 / 2
/-- Local `valueHeight = 27.5f`. -/
def valueHeight : ℚ := 55 / 2
/-- Local `totalHeight = labelHeight + valueHeight`. -/
def totalHeight : ℚ := labelHeight + valueHeight
/-- Local `labelY = (panelHeight - totalHeight) / 2`. -/
def labelY : ℚ := (panelHeight - totalHeight) / 2
/-- Local `numberWidth = 66.0f`. -/
def numberWidth : ℚ := 66

/-- The lambda `layoutCircularButton` called with the cursor at `x`: the bounds given to
the button and the cursor afterwards. -/
def layoutCircularButton (x : ℚ) : Rect × ℚ :=
  (setBounds { x := x, y := (panelHeight - circularButtonSize) / 2,
               width := circularButtonSize, height := circularButtonSize },
   x + (circularButtonSize + padding))

/-- The lambda `layoutStackedLabels` called with the cursor at `x`: the bounds given to the
label, the bounds given to the value, and the cursor afterwards. -/
def layoutStackedLabels (x width : ℚ) : Rect × Rect × ℚ :=
  (setBounds { x := x, y := labelY, width := width, height := labelHeight },
   setBounds { x := x, y := labelY + labelHeight, width := width, height := valueHeight },
   x + (width + padding))

/-- The bounds that `resized` gives to the fifteen children of the panel. -/
structure Children where
  eyeButton : Rect
  skinButton : Rect
  memoryButton : Rect
  disableButton : Rect
  bassOffsetButton : Rect
  instrumentSelector : Rect
  keyLabel : Rect
  keyValueLabel : Rect
  modeSelector : Rect
  octaveLabel : Rect
  octaveValueLabel : Rect
  inversionLabel : Rect
  inversionValueLabel : Rect
  chordLabel : Rect
  chordDisplay : Rect
deriving DecidableEq, Repr

/-- `SettingsPanelXLComponent::resized` (lines 262-354): the cursor `x` runs from
`padding + 45` through the buttons, the instrument selector, the KEY pair, the mode
selector and the OCT and INV pairs; the CHORD pair is placed 20 and 45 to the left of the
final cursor. -/
def resized : Children :=
  let x0 : ℚ := padding + 45
  let eye := layoutCircularButton x0
  let skin := layoutCircularButton eye.2
  let memory := layoutCircularButton skin.2
  let disable := layoutCircularButton memory.2
  let bassOffset := layoutCircularButton disable.2
  let x1 := bassOffset.2
  let instrument : Rect :=
    setBounds { x := x1, y := comboY, width := comboWidth, height := comboHeight }
  let x2 := x1 + (comboWidth + padding)
  let key := layoutStackedLabels x2 keyWidth
  let x3 := key.2.2
  let mode : Rect := setBounds { x := x3, y := comboY, width := 88, height := comboHeight }
  let x4 := x3 + (88 + padding)
  let octave := layoutStackedLabels x4 numberWidth
  let inversion := layoutStackedLabels octave.2.2 numberWidth
  let x5 := inversion.2.2
  let chordLabelX := x5 - 20
  let chordDisplayX := x5 - 45
  { eyeButton := eye.1, skinButton := skin.1, memoryButton := memory.1,
    disableButton := disable.1, bassOffsetButton := bassOffset.1,
    instrumentSelector := instrument,
    keyLabel := key.1, keyValueLabel := key.2.1,
    modeSelector := mode,
    octaveLabel := octave.1, octaveValueLabel := octave.2.1,
    inversionLabel := inversion.1, inversionValueLabel := inversion.2.1,
    chordLabel :=
      setBounds { x := chordLabelX, y := labelY, width := numberWidth, height := labelHeight },
    chordDisplay :=
      setBounds { x := chordDisplayX, y := labelY + labelHeight, width := numberWidth * 2,
                  height := valueHeight } }

/-- The children with the names of the members that hold them, in member order. -/
def Children.toList (c : Children) : List (String × Rect) :=
  [("eyeButton", c.eyeButton), ("skinButton", c.skinButton),
   ("memoryButton", c.memoryButton), ("disableButton", c.disableButton),
   ("bassOffsetButton", c.bassOffsetButton), ("instrumentSelector", c.instrumentSelector),
   ("keyLabel", c.keyLabel), ("keyValueLabel", c.keyValueLabel),
   ("modeSelector", c.modeSelector), ("octaveLabel", c.octaveLabel),
   ("octaveValueLabel", c.octaveValueLabel), ("inversionLabel", c.inversionLabel),
   ("inversionValueLabel", c.inversionValueLabel), ("chordLabel", c.chordLabel),
   ("chordDisplay", c.chordDisplay)]

end SettingsPanelXLComponent

namespace MainComponent

/-- Member `whiteKeyNotes`: the constructor creates white key `i` with the name at
position `i` (lines 14-20). -/
def whiteKeyNotes : List String := ["C", "D", "E", "F", "G", "A", "B"]

/-- JUCE `Rectangle::intersects`: the two rectangles are non-empty and share a point. -/
def Rect.intersects (a b : Rect) : Prop :=
  a.x + a.width > b.x ∧ a.y + a.height > b.y ∧ a.x < b.x + b.width ∧ a.y < b.y + b.height ∧
    a.width > 0 ∧ a.height > 0 ∧ b.width > 0 ∧ b.height > 0

instance (a b : Rect) : Decidable (a.intersects b) := by
  unfold Rect.intersects
  infer_instance

/-- The text that the constructor of `TitleComponent` gives the XL button: `xlButton ("XL")`. -/
def xlButtonInitialText : String := "XL"

/-- The `onClick` handler of the XL button (constructor, lines 90-96) as a function from
the button text before the click to the button text after it. -/
def xlButtonOnClick (currentText : String) : String :=
  if currentText = "XL" then "XXL"
  else if currentText = "XXL" then "XXXL"
  else "XL"

/-! ## Auxiliary facts -/

theorem aspectRatio_eq : aspectRatio = 844 / 390 := by
  simp [aspectRatio, baseWidth, baseHeight]

theorem minHeight_eq : minHeight = 390 := by
  simp [minHeight, toInt, minWidth, aspectRatio_eq]

theorem maxWidth_eq : maxWidth = 844 := by
  norm_num [maxWidth, toInt, aspectRatio_eq]

/-- The four clamps send every size, whatever the first step produced, to 844 x 390:
the width floor leaves a width of at least 844, the height floor then a height of at least
390, and the two ceilings cut both back to exactly 844 and 390. -/
theorem clamps_eq (c : ContentSize) :
    clampMaxWidth aspectRatio maxWidth
      (clampMaxHeight aspectRatio maxHeight
        (clampMinHeight aspectRatio minHeight
          (clampMinWidth aspectRatio minWidth c))) = { width := 844, height := 390 } := by
  obtain ⟨w, h⟩ := c
  simp only [minHeight_eq, maxWidth_eq, minWidth, maxHeight, aspectRatio_eq]
  unfold clampMinWidth
  split_ifs with h1
  · norm_num [clampMinHeight, clampMaxHeight, clampMaxWidth]
  · simp only [not_lt] at h1
    unfold clampMinHeight
    split_ifs with h2
    · norm_num [clampMaxHeight, clampMaxWidth]
    · unfold clampMaxHeight
      split_ifs with h3
      · norm_num [clampMaxWidth]
      · have hh : h = 390 := by
          push_cast at h2 h3
          have h4 : ¬ h < 390 := fun hlt => h2 ⟨hlt, by norm_num⟩
          linarith [not_lt.mp h4, not_lt.mp h3]
        subst hh
        unfold clampMaxWidth
        split_ifs with h5
        · norm_num
        · have hw : w = 844 := by
            push_cast at h1 h5
            have h6 : ¬ (844 : ℚ) < w := fun hlt => h5 ⟨hlt, by norm_num⟩
            linarith [not_lt.mp h6]
          subst hw
          rfl

/-- Whatever the window, the four clamps end on the 844 x 390 rectangle. -/
theorem fit_eq (W H : ℕ) : fit W H = { width := 844, height := 390 } := by
  unfold fit fitWith
  exact clamps_eq _

theorem contentBounds_eq (W H : ℕ) :
    contentBounds W H =
      { x := toInt (((W : ℚ) - 844) / 2 + 170), y := toInt (((H : ℚ) - 390) / 2 + 145),
        width := 844, height := 390 } := by
  simp only [contentBounds, fit_eq, xOffset, yOffset]
  norm_num [toInt]

theorem scaleFactor_eq (W H : ℕ) : scaleFactor W H = 1 := by
  simp [scaleFactor, contentBounds_eq, baseWidth]

/-! ### The header constants under binary32 rounding -/

theorem int_log_two_eq (q : ℚ) (e : ℤ) (hq : 0 < q) (h1 : (2 : ℚ) ^ e ≤ q)
    (h2 : q < (2 : ℚ) ^ (e + 1)) : Int.log 2 q = e := by
  have a1 : e ≤ Int.log 2 q :=
    (Int.zpow_le_iff_le_log (by norm_num) hq).mp (by exact_mod_cast h1)
  have a2 : Int.log 2 q < e + 1 :=
    (Int.lt_zpow_iff_log_lt (by norm_num) hq).mp (by exact_mod_cast h2)
  omega

/-- A positive `q` in the binade of exponent `e` that lies within half a unit in the last
place of the grid point `k * 2 ^ (e - 23)` rounds to that grid point. -/
theorem roundBinary32_of_near (q : ℚ) (e k : ℤ) (hq : 0 < q) (h1 : (2 : ℚ) ^ e ≤ q)
    (h2 : q < (2 : ℚ) ^ (e + 1))
    (h3 : (k : ℚ) - 1 / 2 < q / (2 : ℚ) ^ (e - 23))
    (h4 : q / (2 : ℚ) ^ (e - 23) < (k : ℚ) + 1 / 2) :
    roundBinary32 q = (k : ℚ) * (2 : ℚ) ^ (e - 23) := by
  unfold roundBinary32
  rw [if_neg hq.ne', abs_of_pos hq, int_log_two_eq q e hq h1 h2]
  simp only [if_neg (not_lt.mpr hq.le), one_mul]
  congr 1
  rcases le_or_lt (k : ℚ) (q / (2 : ℚ) ^ (e - 23)) with hk | hk
  · have hf : ⌊q / (2 : ℚ) ^ (e - 23)⌋ = k := by
      rw [Int.floor_eq_iff]
      constructor <;> linarith
    rw [hf, if_pos (by linarith)]
  · have hf : ⌊q / (2 : ℚ) ^ (e - 23)⌋ = k - 1 := by
      rw [Int.floor_eq_iff]
      push_cast
      constructor <;> linarith
    rw [hf]
    push_cast
    rw [if_neg (by linarith), if_pos (by linarith)]
    ring

/-- The binary32 value of `aspectRatio = 844.0f / 390.0f`. -/
theorem aspectRatio_binary32 : roundBinary32 aspectRatio = 1134613 / 524288 := by
  rw [aspectRatio_eq, roundBinary32_of_near (844 / 390) 1 9076904 (by norm_num) (by norm_num)
    (by norm_num) (by norm_num) (by norm_num)]
  norm_num

/-- Computed in binary32, `minWidth / aspectRatio` is exactly 390.0f, so `minHeight` is 390
as in exact arithmetic. -/
theorem minHeight_binary32 :
    roundBinary32 ((minWidth : ℚ) / roundBinary32 aspectRatio) = 390 ∧
      toInt (roundBinary32 ((minWidth : ℚ) / roundBinary32 aspectRatio)) = minHeight := by
  have h : roundBinary32 ((minWidth : ℚ) / roundBinary32 aspectRatio) = 390 := by
    rw [aspectRatio_binary32, minWidth]
    rw [roundBinary32_of_near _ 8 12779520 (by norm_num) (by norm_num) (by norm_num)
      (by norm_num) (by norm_num)]
    norm_num
  refine ⟨h, ?_⟩
  rw [h, minHeight_eq]
  norm_num [toInt]

/-- Computed in binary32, `390.0f * aspectRatio` is exactly 844.0f, so `maxWidth` is 844 as
in exact arithmetic. -/
theorem maxWidth_binary32 :
    roundBinary32 (390 * roundBinary32 aspectRatio) = 844 ∧
      toInt (roundBinary32 (390 * roundBinary32 aspectRatio)) = maxWidth := by
  have h : roundBinary32 (390 * roundBinary32 aspectRatio) = 844 := by
    rw [aspectRatio_binary32]
    rw [roundBinary32_of_near _ 9 13828096 (by norm_num) (by norm_num) (by norm_num)
      (by norm_num) (by norm_num)]
    norm_num
  refine ⟨h, ?_⟩
  rw [h, maxWidth_eq]
  norm_num [toInt]

/-! ### The packing loops -/

theorem whiteKeyLoop_cursor (kw kh m y : ℚ) (n : ℕ) (x : ℚ) :
    (whiteKeyLoop kw kh m y n x).2 = x + (n : ℚ) * (kw + m * 2) := by
  induction n generalizing x with
  | zero => simp [whiteKeyLoop]
  | succ k ih =>
    simp only [whiteKeyLoop, ih]
    push_cast
    ring

theorem whiteKeyLoop_get (kw kh m y : ℚ) (n : ℕ) (x : ℚ) (i : ℕ) (hi : i < n) :
    (whiteKeyLoop kw kh m y n x).1.get? i
      = some { x := x + m + (i : ℚ) * (kw + m * 2), y := y, width := kw, height := kh } := by
  induction n generalizing x i with
  | zero => omega
  | succ k ih =>
    cases i with
    | zero => simp [whiteKeyLoop]
    | succ j =>
      simp only [whiteKeyLoop, List.get?_cons_succ]
      rw [ih _ j (by omega)]
      congr 2
      push_cast
      ring

theorem whiteKeyLoop_size (kw kh m y : ℚ) (n : ℕ) (x : ℚ) (r : FloatRect)
    (hr : r ∈ (whiteKeyLoop kw kh m y n x).1) : r.width = kw ∧ r.height = kh := by
  induction n generalizing x with
  | zero => simp [whiteKeyLoop] at hr
  | succ k ih =>
    simp only [whiteKeyLoop, List.mem_cons] at hr
    rcases hr with rfl | hr
    · exact ⟨rfl, rfl⟩
    · exact ih _ hr

theorem blackKeyLoop_size (kw kh m p y : ℚ) (size : ℕ) (names : List String) (idx : ℕ) (x : ℚ)
    (q : ℕ × FloatRect) (hq : q ∈ (blackKeyLoop kw kh m p y size names idx x).1) :
    q.2.width = kw ∧ q.2.height = kh := by
  induction names generalizing idx x with
  | nil => simp [blackKeyLoop] at hq
  | cons a rest ih =>
    unfold blackKeyLoop at hq
    split_ifs at hq with h1 h2
    · simp only [List.mem_cons] at hq
      rcases hq with rfl | hq
      · exact ⟨rfl, rfl⟩
      · exact ih _ _ hq
    · exact ih _ _ hq
    · exact ih _ _ hq

/-- Truncating a half-integer toward zero is C++ integer division by two. -/
theorem toInt_half (n : ℤ) : toInt ((n : ℚ) / 2) = Int.tdiv n 2 := by
  unfold toInt
  rcases le_or_lt 0 n with hn | hn
  · have h0 : (0 : ℚ) ≤ (n : ℚ) / 2 := by
      have : (0 : ℚ) ≤ (n : ℚ) := by exact_mod_cast hn
      linarith
    rw [if_pos h0, Int.tdiv_eq_ediv hn (by norm_num)]
    rw [Int.floor_eq_iff]
    have h2 := Int.emod_add_ediv n 2
    have h3 := Int.emod_nonneg n (show (2 : ℤ) ≠ 0 by norm_num)
    have h4 := Int.emod_lt_of_pos n (show (0 : ℤ) < 2 by norm_num)
    have h5 : ((n % 2 + 2 * (n / 2) : ℤ) : ℚ) = (n : ℚ) := by rw [h2]
    push_cast at h5
    have h6 : (0 : ℚ) ≤ ((n % 2 : ℤ) : ℚ) := by exact_mod_cast h3
    have h7 : ((n % 2 : ℤ) : ℚ) < 2 := by exact_mod_cast h4
    push_cast at h6 h7
    constructor <;> linarith
  · have h0 : ¬ (0 : ℚ) ≤ (n : ℚ) / 2 := by
      have : (n : ℚ) < 0 := by exact_mod_cast hn
      intro h
      linarith
    rw [if_neg h0]
    obtain ⟨k, rfl⟩ : ∃ k : ℤ, n = -k := ⟨-n, by ring⟩
    have hk : 0 ≤ k := by omega
    rw [Int.neg_tdiv, Int.tdiv_eq_ediv hk (by norm_num)]
    rw [Int.ceil_eq_iff]
    have h2 := Int.emod_add_ediv k 2
    have h3 := Int.emod_nonneg k (show (2 : ℤ) ≠ 0 by norm_num)
    have h4 := Int.emod_lt_of_pos k (show (0 : ℤ) < 2 by norm_num)
    have h5 : ((k % 2 + 2 * (k / 2) : ℤ) : ℚ) = (k : ℚ) := by rw [h2]
    push_cast at h5
    have h6 : (0 : ℚ) ≤ ((k % 2 : ℤ) : ℚ) := by exact_mod_cast h3
    have h7 : ((k % 2 : ℤ) : ℚ) < 2 := by exact_mod_cast h4
    push_cast at h6 h7 ⊢
    constructor <;> linarith

/-- Closed form of the float arguments of the `setBounds` call of white key `i`. -/
theorem whiteKeyArgs_eq (W H : ℕ) (i : ℕ) (hi : i < 7) :
    whiteKeyArgs W H i = some
        { x := (pianoAreaTopLeft W H).1 + 20 * scaleFactor W H + (27 / 2) * scaleFactor W H
                + (i : ℚ) * (72 + 2 * (27 / 2)) * scaleFactor W H,
          y := (pianoAreaTopLeft W H).2 + 10 * scaleFactor W H,
          width := 72 * scaleFactor W H,
          height := 129 * scaleFactor W H } := by
  unfold whiteKeyArgs whiteKeysRow packRow
  rw [whiteKeyLoop_get _ _ _ _ _ _ i (by simpa [whiteKeyCount] using hi)]
  simp only [whiteKeyOrigWidth, whiteKeyOrigHeight, whiteKeyOrigMarginH,
    whiteKeysRowPaddingH, whiteKeysRowTranslateY]
  congr 2
  ring

/-- In a window 952 pixels wide the piano area starts at x = 100. -/
theorem pianoAreaTopLeft_952 (H : ℕ) : (pianoAreaTopLeft 952 H).1 = 100 := by
  simp only [scaleFactor_eq, pianoAreaTopLeft, contentBounds_eq, pianoContainerOrigX]
  norm_num [toInt]

/-! ## The content fit: claims C1 - C5 -/

/-- C1: for every window with positive width and height, the content size that `resized`
reaches after the four clamps has a non-zero height and its ratio width / height differs
from `aspectRatio` by at most 1e-3 of `aspectRatio`; this holds for the exact quotient
844/390 and for its binary32 value alike. -/
theorem fit_aspect_ratio_within_tolerance (W H : ℕ) (_hW : 0 < W) (_hH : 0 < H) :
    0 < (fit W H).height ∧
      |(fit W H).width / (fit W H).height - aspectRatio| ≤ (1 / 1000) * aspectRatio ∧
      |(fit W H).width / (fit W H).height - roundBinary32 aspectRatio|
        ≤ (1 / 1000) * roundBinary32 aspectRatio := by
  rw [fit_eq, aspectRatio_binary32, aspectRatio_eq]
  norm_num [abs_le]

theorem fit_aspect_ratio_within_tolerance_witness :
    (0 < 1000 ∧ 0 < 500) ∧ 0 < (fit 1000 500).height ∧
      |(fit 1000 500).width / (fit 1000 500).height - aspectRatio|
        ≤ (1 / 1000) * aspectRatio ∧
      |(fit 1000 500).width / (fit 1000 500).height - roundBinary32 aspectRatio|
        ≤ (1 / 1000) * roundBinary32 aspectRatio :=
  ⟨⟨by decide, by decide⟩,
    fit_aspect_ratio_within_tolerance 1000 500 (by decide) (by decide)⟩

/-- C2: for every window with positive width and height, the final content size lies in the
configured envelope, both as the float pair `(newContentWidth, newContentHeight)` and as the
integer rectangle `contentBounds`: minWidth <= width <= maxWidth and
minHeight <= height <= maxHeight. -/
theorem fit_within_envelope (W H : ℕ) (_hW : 0 < W) (_hH : 0 < H) :
    ((minWidth : ℚ) ≤ (fit W H).width ∧ (fit W H).width ≤ (maxWidth : ℚ) ∧
      (minHeight : ℚ) ≤ (fit W H).height ∧ (fit W H).height ≤ (maxHeight : ℚ)) ∧
    (minWidth ≤ (contentBounds W H).width ∧ (contentBounds W H).width ≤ maxWidth ∧
      minHeight ≤ (contentBounds W H).height ∧ (contentBounds W H).height ≤ maxHeight) := by
  rw [fit_eq, contentBounds_eq, minHeight_eq, maxWidth_eq]
  norm_num [minWidth, maxHeight]

theorem fit_within_envelope_witness :
    (0 < 1200 ∧ 0 < 300) ∧
    ((minWidth : ℚ) ≤ (fit 1200 300).width ∧ (fit 1200 300).width ≤ (maxWidth : ℚ) ∧
      (minHeight : ℚ) ≤ (fit 1200 300).height ∧ (fit 1200 300).height ≤ (maxHeight : ℚ)) ∧
    (minWidth ≤ (contentBounds 1200 300).width ∧ (contentBounds 1200 300).width ≤ maxWidth ∧
      minHeight ≤ (contentBounds 1200 300).height ∧
      (contentBounds 1200 300).height ≤ maxHeight) :=
  ⟨⟨by decide, by decide⟩, fit_within_envelope 1200 300 (by decide) (by decide)⟩

/-- C3, as stated, fails: at the 1688 x 780 window the content size is not 1688 x 780 with
scale factor 2 and a zero centring residual. -/
theorem double_window_not_double_content :
    ¬ ((fit 1688 780).width = 1688 ∧ (fit 1688 780).height = 780 ∧
        scaleFactor 1688 780 = 2 ∧
        ((1688 : ℚ) - (fit 1688 780).width) / 2 = 0 ∧
        ((780 : ℚ) - (fit 1688 780).height) / 2 = 0) := by
  rw [fit_eq]
  norm_num

/-- C3, amended: at the 1688 x 780 window the height ceiling (maxHeight = 390) clamps the
content to 844 x 390, the scale factor is 1, the centring residual is (422, 195) and
`contentBounds` is the rectangle (422 + 170, 195 + 145, 844, 390). -/
theorem double_window_content :
    fit 1688 780 = { width := 844, height := 390 } ∧
      scaleFactor 1688 780 = 1 ∧
      ((1688 : ℚ) - (fit 1688 780).width) / 2 = 422 ∧
      ((780 : ℚ) - (fit 1688 780).height) / 2 = 195 ∧
      contentBounds 1688 780 = { x := 592, y := 340, width := 844, height := 390 } := by
  refine ⟨fit_eq _ _, scaleFactor_eq _ _, ?_, ?_, ?_⟩
  · rw [fit_eq]; norm_num
  · rw [fit_eq]; norm_num
  · rw [contentBounds_eq]; norm_num [toInt]

/-- C4, as stated, fails: for the 0 x 0 window `contentBounds` is not a zero-size
rectangle. -/
theorem zero_window_content_not_zero :
    ¬ ((contentBounds 0 0).width = 0 ∧ (contentBounds 0 0).height = 0) := by
  rw [contentBounds_eq]
  norm_num

/-- C4, amended: for a degenerate window (width = 0 or height = 0) `resized` signals no
error and the width floor yields the 844 x 390 content rectangle with scale factor 1, so the
keys, the fader and the buttons receive their design sizes (72 x 129, 20 x 92, 40 x 140),
not zero sizes. -/
theorem degenerate_window_content (W H : ℕ) (_h0 : W = 0 ∨ H = 0) :
    (contentBounds W H).width = 844 ∧ (contentBounds W H).height = 390 ∧
      scaleFactor W H = 1 ∧
      (∀ r ∈ (whiteKeysRow W H).1, (setBounds r).width = 72 ∧ (setBounds r).height = 129) ∧
      (∀ q ∈ (blackKeysRow W H).1, (setBounds q.2).width = 72 ∧ (setBounds q.2).height = 129) ∧
      ((setBounds (faderArgs W H)).width = 20 ∧ (setBounds (faderArgs W H)).height = 92) ∧
      ((setBounds (plusButtonArgs W H)).width = 40 ∧
        (setBounds (plusButtonArgs W H)).height = 140) ∧
      ((setBounds (minusButtonArgs W H)).width = 40 ∧
        (setBounds (minusButtonArgs W H)).height = 140) := by
  refine ⟨by rw [contentBounds_eq], by rw [contentBounds_eq], scaleFactor_eq W H, ?_, ?_, ?_,
    ?_, ?_⟩
  · intro r hr
    obtain ⟨hw, hh⟩ := whiteKeyLoop_size _ _ _ _ _ _ r hr
    rw [scaleFactor_eq] at hw hh
    simp only [setBounds, hw, hh]
    norm_num [toInt, whiteKeyOrigWidth, whiteKeyOrigHeight]
  · intro q hq
    obtain ⟨hw, hh⟩ := blackKeyLoop_size _ _ _ _ _ _ _ _ _ q hq
    rw [scaleFactor_eq] at hw hh
    simp only [setBounds, hw, hh]
    norm_num [toInt, blackKeyOrigWidth, blackKeyOrigHeight]
  · simp only [setBounds, faderArgs, scaleFactor_eq]
    norm_num [toInt]
  · simp only [setBounds, plusButtonArgs, buttonWidth, buttonHeight, scaleFactor_eq]
    norm_num [toInt]
  · simp only [setBounds, minusButtonArgs, buttonWidth, buttonHeight, scaleFactor_eq]
    norm_num [toInt]

theorem degenerate_window_content_witness :
    ((0 : ℕ) = 0 ∨ (600 : ℕ) = 0) ∧
      (contentBounds 0 600).width = 844 ∧ (contentBounds 0 600).height = 390 ∧
      scaleFactor 0 600 = 1 :=
  ⟨Or.inl rfl, (degenerate_window_content 0 600 (Or.inl rfl)).1,
    (degenerate_window_content 0 600 (Or.inl rfl)).2.1,
    (degenerate_window_content 0 600 (Or.inl rfl)).2.2.1⟩

/-- C5: at the 390 x 390 window the width binds (390 < minWidth), the width floor fires and
the final content size is minWidth = 844 by minWidth / aspectRatio = 390; the content is
wider than the window (844 > 390). -/
theorem square_window_min_clamp :
    (dominantDimension aspectRatio 390 390).width < (minWidth : ℚ) ∧
      (fit 390 390).width = (minWidth : ℚ) ∧
      (fit 390 390).height = (minWidth : ℚ) / aspectRatio ∧
      (fit 390 390).width = 844 ∧ (fit 390 390).height = 390 ∧
      (contentBounds 390 390).width = 844 ∧
      (((390 : ℕ) : ℚ) < (fit 390 390).width) ∧
      (((390 : ℕ) : ℤ) < (contentBounds 390 390).width) := by
  rw [fit_eq, contentBounds_eq, aspectRatio_eq]
  norm_num [dominantDimension, divGt, minWidth]

/-! ## Scale factor and content origin: claims C6, C7 -/

/-- C6: for every window size (zero included) and every measured title text width, the
scale factor of one pass of `resized` is contentBounds.getWidth() / baseWidth, it is
strictly positive, and that one value scales every element placed in the pass: the white
keys, the black keys, the title block, the fader and the two buttons all receive their
design size multiplied by it. -/
theorem scaleFactor_positive_uniform (W H : ℕ) (titleTextWidth : ℚ) :
    scaleFactor W H = ((contentBounds W H).width : ℚ) / baseWidth ∧
      0 < scaleFactor W H ∧
      (∀ r ∈ (whiteKeysRow W H).1,
        r.width = whiteKeyOrigWidth * scaleFactor W H ∧
        r.height = whiteKeyOrigHeight * scaleFactor W H) ∧
      (∀ q ∈ (blackKeysRow W H).1,
        q.2.width = blackKeyOrigWidth * scaleFactor W H ∧
        q.2.height = blackKeyOrigHeight * scaleFactor W H) ∧
      ((titleArgs W H titleTextWidth).width
          = getOriginalUnrotatedWidth titleTextWidth * scaleFactor W H ∧
        (titleArgs W H titleTextWidth).height
          = getOriginalUnrotatedHeight * scaleFactor W H) ∧
      ((faderArgs W H).width = 20 * scaleFactor W H ∧
        (faderArgs W H).height = (9265 / 100) * scaleFactor W H) ∧
      ((plusButtonArgs W H).width = 40 * scaleFactor W H ∧
        (plusButtonArgs W H).height = 140 * scaleFactor W H) ∧
      ((minusButtonArgs W H).width = 40 * scaleFactor W H ∧
        (minusButtonArgs W H).height = 140 * scaleFactor W H) := by
  refine ⟨rfl, by rw [scaleFactor_eq]; norm_num, ?_, ?_, ⟨rfl, rfl⟩, ⟨rfl, rfl⟩, ⟨rfl, rfl⟩,
    ⟨rfl, rfl⟩⟩
  · intro r hr
    exact whiteKeyLoop_size _ _ _ _ _ _ r hr
  · intro q hq
    exact blackKeyLoop_size _ _ _ _ _ _ _ _ _ q hq

/-- C7: for every window size (W, H) the origin of `contentBounds` is
((W - contentWidth)/2 + 170, (H - contentHeight)/2 + 145), each coordinate truncated toward
zero; as contentWidth = 844 and contentHeight = 390 this is the C++ integer quotient
((W - 504) / 2, (H - 100) / 2). -/
theorem contentBounds_origin (W H : ℕ) :
    (contentBounds W H).x = toInt (((W : ℚ) - (fit W H).width) / 2 + 170) ∧
      (contentBounds W H).y = toInt (((H : ℚ) - (fit W H).height) / 2 + 145) ∧
      (contentBounds W H).x = Int.tdiv ((W : ℤ) - 504) 2 ∧
      (contentBounds W H).y = Int.tdiv ((H : ℤ) - 100) 2 := by
  refine ⟨rfl, rfl, ?_, ?_⟩
  · rw [contentBounds_eq, ← toInt_half]
    simp only
    congr 1
    push_cast
    ring
  · rw [contentBounds_eq, ← toInt_half]
    simp only
    congr 1
    push_cast
    ring

/-! ## The white-key row: claims C8 - C10 -/

/-- C8: for every window size and every index i in 0..6, the float arguments of the
`setBounds` call of white key i are x = pianoAreaTopLeft.x + 20*s + 13.5*s + i*(72 + 2*13.5)*s,
y = pianoAreaTopLeft.y + 10*s, width 72*s and height 129*s with s the scale factor, and the
key receives these four values truncated to integers. -/
theorem whiteKey_rectangle (W H : ℕ) (i : ℕ) (hi : i < 7) :
    whiteKeyArgs W H i = some
        { x := (pianoAreaTopLeft W H).1 + 20 * scaleFactor W H + (27 / 2) * scaleFactor W H
                + (i : ℚ) * (72 + 2 * (27 / 2)) * scaleFactor W H,
          y := (pianoAreaTopLeft W H).2 + 10 * scaleFactor W H,
          width := 72 * scaleFactor W H,
          height := 129 * scaleFactor W H } ∧
      whiteKeyBounds W H i = some
        { x := toInt ((pianoAreaTopLeft W H).1 + 20 * scaleFactor W H
                + (27 / 2) * scaleFactor W H
                + (i : ℚ) * (72 + 2 * (27 / 2)) * scaleFactor W H),
          y := toInt ((pianoAreaTopLeft W H).2 + 10 * scaleFactor W H),
          width := toInt (72 * scaleFactor W H),
          height := toInt (129 * scaleFactor W H) } := by
  refine ⟨whiteKeyArgs_eq W H i hi, ?_⟩
  rw [whiteKeyBounds, whiteKeyArgs_eq W H i hi]
  rfl

theorem whiteKey_rectangle_witness :
    (6 < 7) ∧ whiteKeyBounds 952 390 6 = some
        { x := toInt ((pianoAreaTopLeft 952 390).1 + 20 * scaleFactor 952 390
                + (27 / 2) * scaleFactor 952 390
                + ((6 : ℕ) : ℚ) * (72 + 2 * (27 / 2)) * scaleFactor 952 390),
          y := toInt ((pianoAreaTopLeft 952 390).2 + 10 * scaleFactor 952 390),
          width := toInt (72 * scaleFactor 952 390),
          height := toInt (129 * scaleFactor 952 390) } :=
  ⟨by decide, (whiteKey_rectangle 952 390 6 (by decide)).2⟩

/-- C9, as stated, fails: in the white-key row of the 952 x 390 window (n = 7, w = 72,
m = 13.5, row padding 20) the right edge of the last key is not
rowOrigin.x + rowPadding*scale + n*(w + 2m)*scale. -/
theorem last_whiteKey_right_edge_not_row_end :
    ∃ last, whiteKeyArgs 952 390 6 = some last ∧
      last.x + 72 * scaleFactor 952 390 ≠
        (pianoAreaTopLeft 952 390).1 + 20 * scaleFactor 952 390
          + 7 * (72 + 2 * (27 / 2)) * scaleFactor 952 390 := by
  refine ⟨_, whiteKeyArgs_eq 952 390 6 (by decide), ?_⟩
  simp only [scaleFactor_eq]
  intro h
  norm_num at h
  linarith

/-- C9, amended: for a packed row of n >= 1 items of width w and margin m, the cursor after
the row, which is the last item's right edge plus its trailing margin m*scale, equals
rowOrigin.x + rowPadding*scale + n*(w + 2m)*scale; the last item's right edge itself is that
value minus m*scale.  The white-key row of `resized` is the instance n = 7, w = 72,
m = 13.5, rowPadding = 20. -/
theorem packRow_last_right_edge (n : ℕ) (w h m pad ty s ox oy : ℚ) (hn : 1 ≤ n) :
    (packRow n w h m pad ty s ox oy).2 = ox + pad * s + (n : ℚ) * (w + 2 * m) * s ∧
      (∃ last, (packRow n w h m pad ty s ox oy).1.get? (n - 1) = some last ∧
        last.x + w * s + m * s = ox + pad * s + (n : ℚ) * (w + 2 * m) * s ∧
        last.x + w * s = ox + pad * s + (n : ℚ) * (w + 2 * m) * s - m * s) ∧
      (∀ W H : ℕ, whiteKeysRow W H =
        packRow 7 72 129 (27 / 2) 20 10 (scaleFactor W H)
          (pianoAreaTopLeft W H).1 (pianoAreaTopLeft W H).2) := by
  refine ⟨?_, ?_, fun W H => rfl⟩
  · unfold packRow
    simp only [whiteKeyLoop_cursor]
    ring
  · unfold packRow
    rw [whiteKeyLoop_get _ _ _ _ n _ (n - 1) (by omega)]
    refine ⟨_, rfl, ?_, ?_⟩
    · have hc : ((n - 1 : ℕ) : ℚ) = (n : ℚ) - 1 := by
        rw [Nat.cast_sub hn]; simp
      simp only [hc]
      ring
    · have hc : ((n - 1 : ℕ) : ℚ) = (n : ℚ) - 1 := by
        rw [Nat.cast_sub hn]; simp
      simp only [hc]
      ring

theorem packRow_last_right_edge_witness :
    (1 ≤ 7) ∧
      (packRow 7 72 129 (27 / 2) 20 10 1 100 223).2
        = 100 + 20 * 1 + ((7 : ℕ) : ℚ) * (72 + 2 * (27 / 2)) * 1 :=
  ⟨by decide, (packRow_last_right_edge 7 72 129 (27 / 2) 20 10 1 100 223 (by decide)).1⟩

/-- C10, as stated, fails: in a window 952 pixels wide (scale 1, row origin x = 100) the
right edge of the seventh white key is not 781.5. -/
theorem whiteKey_seven_edge_ne_claimed :
    scaleFactor 952 390 = 1 ∧ (pianoAreaTopLeft 952 390).1 = 100 ∧
      ∃ last, whiteKeyArgs 952 390 6 = some last ∧ last.x + last.width ≠ 1563 / 2 := by
  refine ⟨scaleFactor_eq _ _, pianoAreaTopLeft_952 _, _,
    whiteKeyArgs_eq 952 390 6 (by decide), ?_⟩
  simp only [scaleFactor_eq, pianoAreaTopLeft_952]
  norm_num

/-- C10, amended: with the white-key row (7 keys, width 72, margin 13.5, row padding 20) in
a window 952 pixels wide, the scale is 1, the row origin x is 100 and the seventh white
key's right edge (its unrounded x plus its width) is 133.5 + 7*72 + 6*27 = 799.5. -/
theorem seventh_whiteKey_right_edge (H : ℕ) :
    scaleFactor 952 H = 1 ∧ (pianoAreaTopLeft 952 H).1 = 100 ∧
      (∃ last, whiteKeyArgs 952 H 6 = some last ∧
        last.x + last.width = 267 / 2 + 7 * 72 + 6 * 27 ∧
        last.x + last.width = 1599 / 2) := by
  refine ⟨scaleFactor_eq _ _, pianoAreaTopLeft_952 H, _,
    whiteKeyArgs_eq 952 H 6 (by decide), ?_, ?_⟩
  · simp only [scaleFactor_eq, pianoAreaTopLeft_952]
    norm_num
  · simp only [scaleFactor_eq, pianoAreaTopLeft_952]
    norm_num

/-! ## Further auxiliary facts -/

theorem toInt_intCast (n : ℤ) : toInt (n : ℚ) = n := by
  unfold toInt
  split_ifs <;> simp

theorem one_le_toInt (q : ℚ) (hq : 1 ≤ q) : 1 ≤ toInt q := by
  unfold toInt
  rw [if_pos (by linarith)]
  exact Int.le_floor.mpr (by exact_mod_cast hq)

theorem whiteKeyLoop_length (kw kh m y : ℚ) (n : ℕ) (x : ℚ) :
    (whiteKeyLoop kw kh m y n x).1.length = n := by
  induction n generalizing x with
  | zero => simp [whiteKeyLoop]
  | succ k ih => simp [whiteKeyLoop, ih]

theorem blackKeyCount_eq : blackKeyCount = 5 := by
  simp [blackKeyCount, blackKeyNotes]

/-- The black-key loop of `resized` unrolled over the six names. -/
theorem blackKeyLoop_notes (kw kh m pw y x : ℚ) :
    blackKeyLoop kw kh m pw y 5 blackKeyNotes 0 x =
      ([(0, { x := x + m, y := y, width := kw, height := kh }),
        (1, { x := x + (kw + m * 2) + m, y := y, width := kw, height := kh }),
        (2, { x := x + (kw + m * 2) + (kw + m * 2) + pw + m, y := y, width := kw,
              height := kh }),
        (3, { x := x + (kw + m * 2) + (kw + m * 2) + pw + (kw + m * 2) + m, y := y,
              width := kw, height := kh }),
        (4, { x := x + (kw + m * 2) + (kw + m * 2) + pw + (kw + m * 2) + (kw + m * 2) + m,
              y := y, width := kw, height := kh })],
       x + (kw + m * 2) + (kw + m * 2) + pw + (kw + m * 2) + (kw + m * 2) + (kw + m * 2)) := by
  simp [blackKeyLoop, blackKeyNotes]

/-- A placeholder slot emits nothing and moves the cursor by the placeholder width. -/
theorem blackKeyLoop_placeholder (kw kh m pw y : ℚ) (size : ℕ) (names : List String)
    (idx : ℕ) (x : ℚ) :
    blackKeyLoop kw kh m pw y size ("" :: names) idx x
      = blackKeyLoop kw kh m pw y size names idx (x + pw) := by
  simp [blackKeyLoop]

theorem blackKeysRow_eq (W H : ℕ) :
    blackKeysRow W H =
      blackKeyLoop (72 * scaleFactor W H) (129 * scaleFactor W H) ((27 / 2) * scaleFactor W H)
        (99 * scaleFactor W H) (blackKeysY W H) 5 blackKeyNotes 0 (blackKeysStartX W H) := by
  simp only [blackKeysRow, blackKeyCount_eq, blackKeyOrigWidth, blackKeyOrigHeight,
    blackKeyOrigMarginH, blackKeyPlaceholderOrigWidth]

theorem blackKeysRow_y (W H : ℕ) (q : ℕ × FloatRect) (hq : q ∈ (blackKeysRow W H).1) :
    q.2.y = blackKeysY W H := by
  rw [blackKeysRow_eq, blackKeyLoop_notes] at hq
  simp only [List.mem_cons, List.mem_singleton, List.not_mem_nil, or_false] at hq
  rcases hq with rfl | rfl | rfl | rfl | rfl <;> rfl

theorem buttonsX_eq (W H : ℕ) :
    buttonsX W H = (((contentBounds W H).x + 624 : ℤ) : ℚ) := by
  simp only [buttonsX, buttonWidth, scaleFactor_eq, Rect.getRight, contentBounds_eq]
  push_cast
  ring

theorem blackKeysY_eq (W H : ℕ) :
    blackKeysY W H = (((contentBounds W H).y - 58 : ℤ) : ℚ) := by
  simp only [blackKeysY, pianoAreaTopLeft, scaleFactor_eq, pianoContainerOrigY,
    whiteKeysRowTranslateY, blackKeysRowOrigTop, blackKeysUpOffset]
  push_cast
  ring

/-- The JUCE rotation matrix acts by the standard rotation-about-a-pivot formula. -/
theorem rotation_transformPoint (c s cx cy px py : ℚ) :
    (AffineTransform.rotation c s cx cy).transformPoint px py
      = (cx + (px - cx) * c - (py - cy) * s, cy + (px - cx) * s + (py - cy) * c) := by
  simp only [AffineTransform.rotation, AffineTransform.transformPoint, Prod.mk.injEq]
  constructor <;> ring

/-- The constants used for `std::cos (-pi / 2)` and `std::sin (-pi / 2)` are the values of
the real cosine and sine. -/
theorem cos_sin_minus_half_pi :
    ((cosMinusHalfPi : ℚ) : ℝ) = Real.cos (-(Real.pi / 2)) ∧
      ((sinMinusHalfPi : ℚ) : ℝ) = Real.sin (-(Real.pi / 2)) := by
  simp [cosMinusHalfPi, sinMinusHalfPi]

/-! ## Rows, fader and title: claims C11 - C14, C16, C17 -/

/-- C11: in a window 952 pixels wide the scale is 1 and the row origin x is 100, and the x
coordinate computed for the first white key, before the integer cast of `setBounds`, is
100 + 20 + 13.5 = 133.5. -/
theorem first_whiteKey_x (H : ℕ) :
    scaleFactor 952 H = 1 ∧ (pianoAreaTopLeft 952 H).1 = 100 ∧
      ∃ first, whiteKeyArgs 952 H 0 = some first ∧
        first.x = 100 + 20 + 27 / 2 ∧ first.x = 267 / 2 := by
  refine ⟨scaleFactor_eq _ _, pianoAreaTopLeft_952 H, _,
    whiteKeyArgs_eq 952 H 0 (by decide), ?_, ?_⟩
  · simp only [scaleFactor_eq, pianoAreaTopLeft_952]
    norm_num
  · simp only [scaleFactor_eq, pianoAreaTopLeft_952]
    norm_num

/-- C12: in the black-key row a placeholder slot moves the cursor by 99*scale and gives no
component bounds; the loop places exactly the five black-key instances 0..4 created by the
constructor, each once, and with s the scale factor x(D#) = x(C#) + 99*s,
x(F#) = x(D#) + (72 + 2*13.5)*s + 99*s, x(G#) = x(F#) + 99*s and x(A#) = x(G#) + 99*s. -/
theorem blackKeys_placeholder_row (W H : ℕ) :
    (∀ (names : List String) (idx : ℕ) (x : ℚ),
        blackKeyLoop (72 * scaleFactor W H) (129 * scaleFactor W H)
            ((27 / 2) * scaleFactor W H) (99 * scaleFactor W H) (blackKeysY W H) blackKeyCount
            ("" :: names) idx x
          = blackKeyLoop (72 * scaleFactor W H) (129 * scaleFactor W H)
            ((27 / 2) * scaleFactor W H) (99 * scaleFactor W H) (blackKeysY W H) blackKeyCount
            names idx (x + 99 * scaleFactor W H)) ∧
      blackKeyCount = 5 ∧
      (blackKeysRow W H).1.map Prod.fst = [0, 1, 2, 3, 4] ∧
      (∃ cSharp dSharp fSharp gSharp aSharp : FloatRect,
        (blackKeysRow W H).1
          = [(0, cSharp), (1, dSharp), (2, fSharp), (3, gSharp), (4, aSharp)] ∧
        dSharp.x = cSharp.x + (72 + 2 * (27 / 2)) * scaleFactor W H ∧
        fSharp.x = dSharp.x + (72 + 2 * (27 / 2)) * scaleFactor W H + 99 * scaleFactor W H ∧
        gSharp.x = fSharp.x + (72 + 2 * (27 / 2)) * scaleFactor W H ∧
        aSharp.x = gSharp.x + (72 + 2 * (27 / 2)) * scaleFactor W H) := by
  refine ⟨fun names idx x => blackKeyLoop_placeholder _ _ _ _ _ _ _ _ _, blackKeyCount_eq,
    ?_, ?_⟩
  · rw [blackKeysRow_eq, blackKeyLoop_notes]
    rfl
  · rw [blackKeysRow_eq, blackKeyLoop_notes]
    refine ⟨_, _, _, _, _, rfl, ?_, ?_, ?_, ?_⟩ <;> simp only <;> ring

/-- C13: for every window size the unrounded left edge of the fader is the buttons' X minus
65*scale and its unrounded top is the black-key row's Y plus 20*scale; the buttons' X is the
x of both buttons and the row's Y is the y of every black key.  As the scale is 1, after the
integer casts verticalFader.x = plusButton.x - 65 and verticalFader.y = y of every black
key + 20. -/
theorem fader_from_buttons_and_blackKeys (W H : ℕ) :
    (faderArgs W H).x = buttonsX W H - 65 * scaleFactor W H ∧
      (faderArgs W H).y = blackKeysY W H + 20 * scaleFactor W H ∧
      (plusButtonArgs W H).x = buttonsX W H ∧ (minusButtonArgs W H).x = buttonsX W H ∧
      (∀ q ∈ (blackKeysRow W H).1, q.2.y = blackKeysY W H) ∧
      scaleFactor W H = 1 ∧
      (setBounds (faderArgs W H)).x = (setBounds (plusButtonArgs W H)).x - 65 ∧
      (∀ q ∈ (blackKeysRow W H).1,
        (setBounds (faderArgs W H)).y = (setBounds q.2).y + 20) := by
  refine ⟨rfl, rfl, rfl, rfl, blackKeysRow_y W H, scaleFactor_eq W H, ?_, ?_⟩
  · have h1 : (faderArgs W H).x = (((contentBounds W H).x + 624 - 65 : ℤ) : ℚ) := by
      simp only [faderArgs, buttonsX_eq, scaleFactor_eq]
      push_cast
      ring
    simp only [setBounds, h1, plusButtonArgs, buttonsX_eq, toInt_intCast]
  · intro q hq
    have h1 : (faderArgs W H).y = (((contentBounds W H).y - 58 + 20 : ℤ) : ℚ) := by
      simp only [faderArgs, blackKeysY_eq, scaleFactor_eq]
      push_cast
      ring
    simp only [setBounds, h1, blackKeysRow_y W H q hq, blackKeysY_eq, toInt_intCast]

/-- C14: the transform that `resized` sets on the title component is the JUCE rotation with
the cosine and sine of -pi/2 about the centre (cx, cy) = (x + w/2, y + h/2) of the title's
placed rectangle; it leaves the centre fixed, maps each of the four corners (px, py) to
(cx + (py - cy), cy - (px - cx)), and acts on every point by the standard
rotation-about-centre formula. -/
theorem title_rotation_about_centre (W H : ℕ) (titleTextWidth : ℚ) :
    titleTransform W H titleTextWidth
        = AffineTransform.rotation cosMinusHalfPi sinMinusHalfPi
            (((titleBounds W H titleTextWidth).x : ℚ)
              + ((titleBounds W H titleTextWidth).width : ℚ) / 2)
            (((titleBounds W H titleTextWidth).y : ℚ)
              + ((titleBounds W H titleTextWidth).height : ℚ) / 2) ∧
      (((cosMinusHalfPi : ℚ) : ℝ) = Real.cos (-(Real.pi / 2)) ∧
        ((sinMinusHalfPi : ℚ) : ℝ) = Real.sin (-(Real.pi / 2))) ∧
      (titleTransform W H titleTextWidth).transformPoint
          (titleCentreX W H titleTextWidth) (titleCentreY W H titleTextWidth)
        = (titleCentreX W H titleTextWidth, titleCentreY W H titleTextWidth) ∧
      (∀ p ∈ (titleBounds W H titleTextWidth).corners,
        (titleTransform W H titleTextWidth).transformPoint p.1 p.2
          = (titleCentreX W H titleTextWidth + (p.2 - titleCentreY W H titleTextWidth),
             titleCentreY W H titleTextWidth - (p.1 - titleCentreX W H titleTextWidth))) ∧
      (∀ px py : ℚ,
        (titleTransform W H titleTextWidth).transformPoint px py
          = (titleCentreX W H titleTextWidth
               + (px - titleCentreX W H titleTextWidth) * cosMinusHalfPi
               - (py - titleCentreY W H titleTextWidth) * sinMinusHalfPi,
             titleCentreY W H titleTextWidth
               + (px - titleCentreX W H titleTextWidth) * sinMinusHalfPi
               + (py - titleCentreY W H titleTextWidth) * cosMinusHalfPi)) := by
  refine ⟨rfl, cos_sin_minus_half_pi, ?_, ?_, ?_⟩
  · rw [titleTransform, rotation_transformPoint]
    simp
  · intro p _
    rw [titleTransform, rotation_transformPoint]
    simp only [cosMinusHalfPi, sinMinusHalfPi, Prod.mk.injEq]
    constructor <;> ring
  · intro px py
    rw [titleTransform, rotation_transformPoint]

/-- C16: for every window with positive width and height and every non-negative measured
title text width, each rectangle that `resized` assigns has strictly positive width and
height: the 7 white keys, the 5 black keys, the fader, the plus and minus buttons and the
title block. -/
theorem placed_rectangles_positive (W H : ℕ) (titleTextWidth : ℚ) (_hW : 0 < W)
    (_hH : 0 < H) (ht : 0 ≤ titleTextWidth) :
    ((whiteKeysRow W H).1.length = 7 ∧
      ∀ r ∈ (whiteKeysRow W H).1, 0 < (setBounds r).width ∧ 0 < (setBounds r).height) ∧
    ((blackKeysRow W H).1.length = 5 ∧
      ∀ q ∈ (blackKeysRow W H).1, 0 < (setBounds q.2).width ∧ 0 < (setBounds q.2).height) ∧
    (0 < (setBounds (faderArgs W H)).width ∧ 0 < (setBounds (faderArgs W H)).height) ∧
    (0 < (setBounds (plusButtonArgs W H)).width ∧
      0 < (setBounds (plusButtonArgs W H)).height) ∧
    (0 < (setBounds (minusButtonArgs W H)).width ∧
      0 < (setBounds (minusButtonArgs W H)).height) ∧
    (0 < (titleBounds W H titleTextWidth).width ∧
      0 < (titleBounds W H titleTextWidth).height) := by
  refine ⟨⟨?_, ?_⟩, ⟨?_, ?_⟩, ?_, ?_, ?_, ?_⟩
  · simp [whiteKeysRow, packRow, whiteKeyLoop_length, whiteKeyCount]
  · intro r hr
    obtain ⟨hw, hh⟩ := whiteKeyLoop_size _ _ _ _ _ _ r hr
    rw [scaleFactor_eq] at hw hh
    simp only [setBounds, hw, hh]
    norm_num [toInt, whiteKeyOrigWidth, whiteKeyOrigHeight]
  · rw [blackKeysRow_eq, blackKeyLoop_notes]
    rfl
  · intro q hq
    obtain ⟨hw, hh⟩ := blackKeyLoop_size _ _ _ _ _ _ _ _ _ q hq
    rw [scaleFactor_eq] at hw hh
    simp only [setBounds, hw, hh]
    norm_num [toInt, blackKeyOrigWidth, blackKeyOrigHeight]
  · simp only [setBounds, faderArgs, scaleFactor_eq]
    norm_num [toInt]
  · simp only [setBounds, plusButtonArgs, buttonWidth, buttonHeight, scaleFactor_eq]
    norm_num [toInt]
  · simp only [setBounds, minusButtonArgs, buttonWidth, buttonHeight, scaleFactor_eq]
    norm_num [toInt]
  · simp only [titleBounds, setBounds, titleArgs, getOriginalUnrotatedWidth,
      getOriginalUnrotatedHeight, scaleFactor_eq]
    constructor
    · have := one_le_toInt ((titleTextWidth + 10 + 78) * 1) (by linarith)
      omega
    · norm_num [toInt]

theorem placed_rectangles_positive_witness :
    (0 < 952 ∧ 0 < 390 ∧ (0 : ℚ) ≤ 60) ∧
      (0 < (setBounds (faderArgs 952 390)).width ∧
        0 < (setBounds (faderArgs 952 390)).height) ∧
      (0 < (titleBounds 952 390 60).width ∧ 0 < (titleBounds 952 390 60).height) :=
  ⟨⟨by decide, by decide, by norm_num⟩,
    (placed_rectangles_positive 952 390 60 (by decide) (by decide) (by norm_num)).2.2.1,
    (placed_rectangles_positive 952 390 60 (by decide) (by decide) (by norm_num)).2.2.2.2.2⟩

/-- C17: after the black-key loop the cursor `blackKeysCurrentX`, stored as
`blackKeyContentAreaRightAbsolute`, equals the start value of the cursor plus the consumed
width of the row, (5*(72 + 2*13.5) + 99)*scale = 594*scale. -/
theorem blackKeys_cursor_after_loop (W H : ℕ) :
    blackKeyContentAreaRightAbsolute W H
        = blackKeysStartX W H + (5 * (72 + 2 * (27 / 2)) + 99) * scaleFactor W H ∧
      blackKeyContentAreaRightAbsolute W H = blackKeysStartX W H + 594 * scaleFactor W H := by
  unfold blackKeyContentAreaRightAbsolute
  rw [blackKeysRow_eq, blackKeyLoop_notes]
  constructor <;> simp only <;> ring

end MainComponent

namespace MainComponent

/-! ## Purity and the fixed content size: claims C18, C19 -/

/-- C18: the content fit of `resized` is a function of the window size alone: from any two
member states (whatever `contentBounds` and the settings panel held before) the same
window width and height give the same content width, content height, scale factor and
content origin and the same stored `contentBounds`, namely the values `fit`,
`contentBounds` and `scaleFactor` of the window size; a second run from the state left by
the first changes nothing. -/
theorem resizedContentFit_pure (m1 m2 : Members) (W H : ℕ) :
    (resizedContentFit m1 W H).2 = (resizedContentFit m2 W H).2 ∧
      (resizedContentFit m1 W H).1.contentBounds
        = (resizedContentFit m2 W H).1.contentBounds ∧
      resizedContentFit (resizedContentFit m1 W H).1 W H = resizedContentFit m1 W H ∧
      (resizedContentFit m1 W H).2 =
        { newContentWidth := (fit W H).width, newContentHeight := (fit W H).height,
          contentX := (contentBounds W H).x, contentY := (contentBounds W H).y,
          scaleFactor := scaleFactor W H } ∧
      (resizedContentFit m1 W H).1.contentBounds = contentBounds W H :=
  ⟨rfl, rfl, rfl, rfl, rfl⟩

/-- C19: for every window size the content rectangle has exactly the size 844 x 390 and the
scale factor is exactly 1: the four bounds are 844, 390, 844 and 390, so the four clamps
send every size to 844 x 390, and content size and scale are the same for any two window
sizes. -/
theorem content_size_fixed (W H : ℕ) :
    (minWidth = 844 ∧ minHeight = 390 ∧ maxWidth = 844 ∧ maxHeight = 390) ∧
      (∀ c : ContentSize,
        clampMaxWidth aspectRatio maxWidth
          (clampMaxHeight aspectRatio maxHeight
            (clampMinHeight aspectRatio minHeight
              (clampMinWidth aspectRatio minWidth c))) = { width := 844, height := 390 }) ∧
      fit W H = { width := 844, height := 390 } ∧
      ((contentBounds W H).width = 844 ∧ (contentBounds W H).height = 390) ∧
      scaleFactor W H = 1 ∧
      (∀ W2 H2 : ℕ, fit W H = fit W2 H2 ∧
        (contentBounds W H).width = (contentBounds W2 H2).width ∧
        (contentBounds W H).height = (contentBounds W2 H2).height ∧
        scaleFactor W H = scaleFactor W2 H2) := by
  refine ⟨⟨rfl, minHeight_eq, maxWidth_eq, rfl⟩, clamps_eq, fit_eq W H, ?_, scaleFactor_eq W H,
    ?_⟩
  · rw [contentBounds_eq]
    exact ⟨rfl, rfl⟩
  · intro W2 H2
    rw [fit_eq, fit_eq, contentBounds_eq, contentBounds_eq, scaleFactor_eq, scaleFactor_eq]
    exact ⟨rfl, rfl, rfl, rfl⟩

end MainComponent

namespace TitleComponent

open MainComponent (Rect FloatRect toInt setBounds AffineTransform)

/-! ## The title block lays out its children from its own size: claim C15 -/

/-- C15: `TitleComponent::resized` gives the XL button the bounds
(W - 78, trunc((H - 47)/2), 78, 47) and the label the bounds (0, 0, W - 88, H), where W and
H are the component's own width and height; a component of the same size at any other
position, with any other transform and any previous child bounds gets the same child
bounds; setting the rotation of `MainComponent::resized` changes no child bounds, and
running `resized` after it gives the same child bounds as before.  With the bounds that
`MainComponent::resized` assigns (text width >= 0) the label width W - 88 is not
negative. -/
theorem resized_children_from_size (t : State) :
    ((resized t).xlButton =
        { x := t.bounds.width - 78, y := toInt (((t.bounds.height : ℚ) - 47) / 2),
          width := 78, height := 47 } ∧
      (resized t).titleLabel =
        { x := 0, y := 0, width := t.bounds.width - 88, height := t.bounds.height }) ∧
    (∀ (x2 y2 : ℤ) (m2 : AffineTransform) (b2 l2 : Rect),
      (resized { bounds := { x := x2, y := y2, width := t.bounds.width,
                             height := t.bounds.height },
                 transform := m2, xlButton := b2, titleLabel := l2 }).xlButton
          = (resized t).xlButton ∧
      (resized { bounds := { x := x2, y := y2, width := t.bounds.width,
                             height := t.bounds.height },
                 transform := m2, xlButton := b2, titleLabel := l2 }).titleLabel
          = (resized t).titleLabel) ∧
    (∀ (W H : ℕ) (titleTextWidth : ℚ),
      (setTransform (MainComponent.titleTransform W H titleTextWidth) t).xlButton = t.xlButton ∧
      (setTransform (MainComponent.titleTransform W H titleTextWidth) t).titleLabel
        = t.titleLabel ∧
      (setTransform (MainComponent.titleTransform W H titleTextWidth) t).bounds = t.bounds ∧
      (resized (setTransform (MainComponent.titleTransform W H titleTextWidth) t)).xlButton
        = (resized t).xlButton ∧
      (resized (setTransform (MainComponent.titleTransform W H titleTextWidth) t)).titleLabel
        = (resized t).titleLabel) ∧
    (∀ (W H : ℕ) (titleTextWidth : ℚ), 0 ≤ titleTextWidth →
      t.bounds = MainComponent.titleBounds W H titleTextWidth →
      0 ≤ (resized t).titleLabel.width) := by
  have hlabel : (resized t).titleLabel =
      { x := 0, y := 0, width := t.bounds.width - 88, height := t.bounds.height } := by
    simp only [resized, getLocalBounds, xlButtonWidth, internalPadding]
    have h1 : (t.bounds.width : ℚ) - 78 - 10 = ((t.bounds.width - 88 : ℤ) : ℚ) := by
      push_cast; ring
    rw [h1, MainComponent.toInt_intCast]
  refine ⟨⟨?_, hlabel⟩, fun x2 y2 m2 b2 l2 => ⟨rfl, rfl⟩,
    fun W H w => ⟨rfl, rfl, rfl, rfl, rfl⟩, ?_⟩
  · simp only [resized, getLocalBounds, setBounds, xlButtonWidth, xlButtonHeight]
    have h1 : (t.bounds.width : ℚ) - 78 = ((t.bounds.width - 78 : ℤ) : ℚ) := by push_cast; ring
    rw [h1, MainComponent.toInt_intCast]
    norm_num [toInt]
  · intro W H w hw hb
    rw [hlabel, hb]
    simp only [MainComponent.titleBounds, setBounds, MainComponent.titleArgs,
      MainComponent.getOriginalUnrotatedWidth, MainComponent.scaleFactor_eq]
    have h88 : (88 : ℤ) ≤ toInt ((w + 10 + 78) * 1) := by
      unfold MainComponent.toInt
      rw [if_pos (by linarith)]
      exact Int.le_floor.mpr (by push_cast; linarith)
    omega

end TitleComponent

namespace SettingsPanelXLComponent

/-! ## The inversion flag and the selected control: claim C20 -/

end SettingsPanelXLComponent

namespace MainComponent

/-! ## The first step and the clamp order: claims C21 - C23 -/

theorem aspectRatio_pos : 0 < aspectRatio := by
  rw [aspectRatio_eq]; norm_num

theorem divGt_iff (a b c : ℚ) (hb : 0 < b) : divGt a b c = true ↔ c < a / b := by
  simp [divGt, hb.ne']

/-- Step 1 keeps the aspect ratio, for any non-zero ratio and any window. -/
theorem dominantDimension_ratio (ar W H : ℚ) (har : ar ≠ 0) :
    (dominantDimension ar W H).width = (dominantDimension ar W H).height * ar := by
  unfold dominantDimension
  split
  · rfl
  · simp only
    field_simp

/-- The width floor keeps the aspect ratio and establishes `minW <= width`. -/
theorem clampMinWidth_spec (ar : ℚ) (minW : ℤ) (c : ContentSize) (har : ar ≠ 0)
    (hc : c.width = c.height * ar) :
    (clampMinWidth ar minW c).width = (clampMinWidth ar minW c).height * ar ∧
      (minW : ℚ) ≤ (clampMinWidth ar minW c).width := by
  unfold clampMinWidth
  split_ifs with h
  · simp only
    constructor
    · field_simp
    · exact le_refl _
  · exact ⟨hc, not_lt.mp h⟩

/-- The height floor never lowers a width that is in the aspect ratio with its height. -/
theorem clampMinHeight_width_le (ar : ℚ) (minH : ℤ) (c : ContentSize) (har : 0 < ar)
    (hc : c.width = c.height * ar) :
    c.width ≤ (clampMinHeight ar minH c).width ∧
      (clampMinHeight ar minH c).width = (clampMinHeight ar minH c).height * ar := by
  unfold clampMinHeight
  split_ifs with h
  · refine ⟨?_, rfl⟩
    rw [hc]
    exact mul_le_mul_of_nonneg_right h.1.le har.le
  · exact ⟨le_refl _, hc⟩

theorem width_floor_after_minHeight (ar : ℚ) (minW minH : ℤ) (W H : ℚ) (har : 0 < ar) :
    (minW : ℚ) ≤
      (clampMinHeight ar minH (clampMinWidth ar minW (dominantDimension ar W H))).width := by
  have h1 := dominantDimension_ratio ar W H har.ne'
  have h2 := clampMinWidth_spec ar minW _ har.ne' h1
  have h3 := clampMinHeight_width_le ar minH _ har h2.1
  exact le_trans h2.2 h3.1

/-- C21: for every window with positive width W and height H, the size (w0, h0) chosen by
the aspect-ratio branch satisfies w0 = h0 * aspectRatio, w0 <= W, h0 <= H and w0 = W or
h0 = H; the height branch (h0 = H, w0 = H * aspectRatio) is taken when W/H > aspectRatio and
the width branch (w0 = W, h0 = W / aspectRatio) otherwise; the width is slack exactly when
W/H > aspectRatio and the height exactly when W/H < aspectRatio; and (w0, h0) is the largest
rectangle of the design aspect ratio that fits in the window. -/
theorem dominantDimension_largest_fit (W H : ℕ) (_hW : 0 < W) (hH : 0 < H) :
    ((dominantDimension aspectRatio W H).width
        = (dominantDimension aspectRatio W H).height * aspectRatio) ∧
      (dominantDimension aspectRatio W H).width ≤ (W : ℚ) ∧
      (dominantDimension aspectRatio W H).height ≤ (H : ℚ) ∧
      ((dominantDimension aspectRatio W H).width = (W : ℚ) ∨
        (dominantDimension aspectRatio W H).height = (H : ℚ)) ∧
      (aspectRatio < (W : ℚ) / (H : ℚ) →
        dominantDimension aspectRatio W H = { width := (H : ℚ) * aspectRatio, height := (H : ℚ) }) ∧
      (¬ aspectRatio < (W : ℚ) / (H : ℚ) →
        dominantDimension aspectRatio W H = { width := (W : ℚ), height := (W : ℚ) / aspectRatio }) ∧
      (aspectRatio < (W : ℚ) / (H : ℚ) ↔ (dominantDimension aspectRatio W H).width < (W : ℚ)) ∧
      ((W : ℚ) / (H : ℚ) < aspectRatio ↔ (dominantDimension aspectRatio W H).height < (H : ℚ)) ∧
      (∀ w h : ℚ, w = h * aspectRatio → w ≤ (W : ℚ) → h ≤ (H : ℚ) →
        w ≤ (dominantDimension aspectRatio W H).width ∧
        h ≤ (dominantDimension aspectRatio W H).height) := by
  have hHq : (0 : ℚ) < (H : ℚ) := by exact_mod_cast hH
  have har := aspectRatio_pos
  by_cases hgt : aspectRatio < (W : ℚ) / (H : ℚ)
  · have hd : dominantDimension aspectRatio W H
        = { width := (H : ℚ) * aspectRatio, height := (H : ℚ) } := by
      unfold dominantDimension
      rw [if_pos ((divGt_iff _ _ _ hHq).mpr hgt)]
    have hlt : (H : ℚ) * aspectRatio < (W : ℚ) := by
      have := (lt_div_iff₀ hHq).mp hgt
      linarith
    rw [hd]
    refine ⟨rfl, hlt.le, le_refl _, Or.inr rfl, fun _ => rfl, fun h => absurd hgt h,
      ⟨fun _ => hlt, fun _ => hgt⟩, ⟨fun h => absurd hgt (not_lt.mpr h.le), fun h => absurd h (lt_irrefl _)⟩, ?_⟩
    intro w h hw _ hh
    refine ⟨?_, hh⟩
    rw [hw]
    exact mul_le_mul_of_nonneg_right hh har.le
  · have hd : dominantDimension aspectRatio W H
        = { width := (W : ℚ), height := (W : ℚ) / aspectRatio } := by
      unfold dominantDimension
      rw [if_neg (fun h => hgt ((divGt_iff _ _ _ hHq).mp h))]
    have hle : (W : ℚ) ≤ (H : ℚ) * aspectRatio := by
      have := (div_le_iff₀ hHq).mp (not_lt.mp hgt)
      linarith
    have hdiv : (W : ℚ) / aspectRatio ≤ (H : ℚ) := (div_le_iff₀ har).mpr hle
    rw [hd]
    refine ⟨by field_simp, le_refl _, hdiv, Or.inl rfl, fun h => absurd h hgt, fun _ => rfl,
      ⟨fun h => absurd h hgt, fun h => absurd h (lt_irrefl _)⟩, ⟨?_, ?_⟩, ?_⟩
    · intro h
      have h1 : (W : ℚ) < aspectRatio * (H : ℚ) := (div_lt_iff₀ hHq).mp h
      exact (div_lt_iff₀ har).mpr (by linarith)
    · intro h
      have h1 : (W : ℚ) < (H : ℚ) * aspectRatio := (div_lt_iff₀ har).mp h
      exact (div_lt_iff₀ hHq).mpr (by linarith)
    · intro w h hw hwW _
      refine ⟨hwW, ?_⟩
      rw [le_div_iff₀ har, ← hw]
      exact hwW

end MainComponent

namespace MainComponent

theorem dominantDimension_largest_fit_witness :
    (0 < 1000 ∧ 0 < 500) ∧
      (dominantDimension aspectRatio (1000 : ℕ) (500 : ℕ)).width ≤ ((1000 : ℕ) : ℚ) ∧
      (dominantDimension aspectRatio (1000 : ℕ) (500 : ℕ)).height ≤ ((500 : ℕ) : ℚ) :=
  ⟨⟨by decide, by decide⟩,
    (dominantDimension_largest_fit 1000 500 (by decide) (by decide)).2.1,
    (dominantDimension_largest_fit 1000 500 (by decide) (by decide)).2.2.1⟩

/-- C22, as stated, fails: there are no viewport, bounds and positive aspect ratio for which
the height-min clamp (step 3) leaves contentWidth below minWidth. -/
theorem minHeight_clamp_never_breaks_width_floor :
    ¬ ∃ (ar : ℚ) (minW minH : ℤ) (W H : ℕ), 0 < ar ∧
        (clampMinHeight ar minH
          (clampMinWidth ar minW (dominantDimension ar W H))).width < (minW : ℚ) := by
  rintro ⟨ar, minW, minH, W, H, har, hlt⟩
  exact absurd hlt (not_lt.mpr (width_floor_after_minHeight ar minW minH W H har))

/-- C22, amended: with the min bounds and the positive aspect ratio as parameters, for every
viewport the width-min clamp (step 2) establishes minWidth <= contentWidth and the
height-min clamp (step 3) never lowers contentWidth, so the width floor still holds after
step 3 and the size is still in the aspect ratio. -/
theorem minHeight_clamp_keeps_width_floor (ar : ℚ) (minW minH : ℤ) (W H : ℕ) (har : 0 < ar) :
    (minW : ℚ) ≤ (clampMinWidth ar minW (dominantDimension ar W H)).width ∧
      (clampMinWidth ar minW (dominantDimension ar W H)).width
        ≤ (clampMinHeight ar minH
            (clampMinWidth ar minW (dominantDimension ar W H))).width ∧
      (minW : ℚ) ≤
        (clampMinHeight ar minH
          (clampMinWidth ar minW (dominantDimension ar W H))).width ∧
      (clampMinHeight ar minH (clampMinWidth ar minW (dominantDimension ar W H))).width
        = (clampMinHeight ar minH
            (clampMinWidth ar minW (dominantDimension ar W H))).height * ar := by
  have h1 := dominantDimension_ratio ar W H har.ne'
  have h2 := clampMinWidth_spec ar minW _ har.ne' h1
  have h3 := clampMinHeight_width_le ar minH _ har h2.1
  exact ⟨h2.2, h3.1, le_trans h2.2 h3.1, h3.2⟩

theorem minHeight_clamp_keeps_width_floor_witness :
    ((0 : ℚ) < 2) ∧
      (((100 : ℤ) : ℚ) ≤
        (clampMinHeight 2 80 (clampMinWidth 2 100 (dominantDimension 2 (50 : ℕ) (50 : ℕ)))).width) ∧
      clampMinHeight 2 80 (clampMinWidth 2 100 (dominantDimension 2 (50 : ℕ) (50 : ℕ)))
        = { width := 160, height := 80 } := by
  refine ⟨by norm_num,
    (minHeight_clamp_keeps_width_floor 2 100 80 50 50 (by norm_num)).2.2.1, ?_⟩
  norm_num [dominantDimension, divGt, clampMinWidth, clampMinHeight]

/-- C23: with the bounds as parameters the final size can violate an earlier constraint.
For aspect ratio 2, minWidth 100, minHeight 10, maxWidth 1000, maxHeight 10 and the window
50 x 50, the width-min clamp gives 100 x 50, the height-min clamp leaves it, the height-max
clamp shrinks it to 20 x 10 and that is the final size: contentWidth 20 < minWidth 100. -/
theorem maxHeight_clamp_breaks_width_floor :
    (clampMinWidth 2 100 (dominantDimension 2 (50 : ℕ) (50 : ℕ))
        = { width := 100, height := 50 } ∧
      clampMinHeight 2 10 (clampMinWidth 2 100 (dominantDimension 2 (50 : ℕ) (50 : ℕ)))
        = { width := 100, height := 50 } ∧
      clampMaxHeight 2 10
          (clampMinHeight 2 10 (clampMinWidth 2 100 (dominantDimension 2 (50 : ℕ) (50 : ℕ))))
        = { width := 20, height := 10 } ∧
      fitWith 2 100 10 1000 10 (50 : ℕ) (50 : ℕ) = { width := 20, height := 10 }) ∧
    (∃ (ar : ℚ) (minW minH maxW maxH : ℤ) (W H : ℕ), 0 < ar ∧
      (minW : ℚ) ≤ (clampMinWidth ar minW (dominantDimension ar W H)).width ∧
      (clampMaxHeight ar maxH
        (clampMinHeight ar minH
          (clampMinWidth ar minW (dominantDimension ar W H)))).width < (minW : ℚ) ∧
      (fitWith ar minW minH maxW maxH W H).width < (minW : ℚ)) := by
  refine ⟨⟨?_, ?_, ?_, ?_⟩, 2, 100, 10, 1000, 10, 50, 50, by norm_num, ?_, ?_, ?_⟩ <;>
    norm_num [fitWith, dominantDimension, divGt, clampMinWidth, clampMinHeight, clampMaxHeight,
      clampMaxWidth]

end MainComponent

namespace SettingsPanelXLComponent

/-! ## Selection and inversion value: claims C24, C30 -/

/-- C24: `toggleSelection (c)` for a non-empty control name c: if `selectedControl` equals c
beforehand it becomes the empty string, otherwise it becomes c; when c is "inversion" one
notification is appended, carrying isSelected = (the new `selectedControl` is "inversion")
and the unchanged `currentInversionValue`; for any other c no notification is sent. -/
theorem toggleSelection_effect (c : String) (s : State) (_hc : c ≠ "") :
    (s.selectedControl = c → (toggleSelection c s).selectedControl = "") ∧
      (s.selectedControl ≠ c → (toggleSelection c s).selectedControl = c) ∧
      (c = "inversion" →
        (toggleSelection c s).notifications
          = s.notifications ++
              [(decide ((toggleSelection c s).selectedControl = "inversion"),
                s.currentInversionValue)]) ∧
      (c ≠ "inversion" → (toggleSelection c s).notifications = s.notifications) ∧
      (toggleSelection c s).currentInversionValue = s.currentInversionValue := by
  by_cases h2 : c = "inversion"
  · subst h2
    by_cases h1 : s.selectedControl = "inversion" <;> simp [toggleSelection, h1, broadcast]
  · by_cases h1 : s.selectedControl = c <;> simp [toggleSelection, h1, h2]

theorem toggleSelection_effect_witness :
    ("inversion" ≠ "") ∧
      (toggleSelection "inversion" initial).selectedControl = "inversion" ∧
      (toggleSelection "inversion" initial).notifications = [(true, 0)] := by
  have h := toggleSelection_effect "inversion" initial (by decide)
  exact ⟨by decide, h.2.1 (by decide), by decide⟩

theorem setInversionValue_same (v : ℤ) (t : State) (h : t.currentInversionValue = v) :
    setInversionValue v t = t := by
  simp [setInversionValue, h]

/-- C30: `setInversionValue (v)`: when v equals `currentInversionValue` the state is
unchanged (so nothing is notified); otherwise `currentInversionValue` becomes v,
`selectedControl` and `isInversionSelected` are unchanged, and the notification (true, v)
is appended if `isInversionSelected` is true and nothing is appended if it is false.
Calling it twice with the same v gives the same state, notifications included, as calling
it once. -/
theorem setInversionValue_effect (v : ℤ) (s : State) :
    (v = s.currentInversionValue → setInversionValue v s = s) ∧
      (v ≠ s.currentInversionValue →
        (setInversionValue v s).currentInversionValue = v ∧
        (setInversionValue v s).selectedControl = s.selectedControl ∧
        (setInversionValue v s).isInversionSelected = s.isInversionSelected ∧
        (s.isInversionSelected = true →
          (setInversionValue v s).notifications = s.notifications ++ [(true, v)]) ∧
        (s.isInversionSelected = false →
          (setInversionValue v s).notifications = s.notifications)) ∧
      setInversionValue v (setInversionValue v s) = setInversionValue v s := by
  have hcur : (setInversionValue v s).currentInversionValue = v := by
    unfold setInversionValue
    by_cases h : s.currentInversionValue = v <;> by_cases hb : s.isInversionSelected = true <;>
      simp [h, hb, broadcast]
  refine ⟨?_, ?_, ?_⟩
  · intro h
    simp [setInversionValue, h]
  · intro h
    have h' : s.currentInversionValue ≠ v := fun e => h e.symm
    unfold setInversionValue
    by_cases hb : s.isInversionSelected = true <;> simp [h', hb, broadcast]
  · exact setInversionValue_same v _ hcur

end SettingsPanelXLComponent

namespace MainComponent

/-! ## The XL button text: claim C29 -/

theorem xlButtonOnClick_iterate (n : ℕ) :
    Nat.iterate xlButtonOnClick n xlButtonInitialText =
      if n % 3 = 0 then "XL" else if n % 3 = 1 then "XXL" else "XXXL" := by
  induction n with
  | zero => rfl
  | succ k ih =>
    rw [Function.iterate_succ_apply', ih]
    have h3 : k % 3 = 0 ∨ k % 3 = 1 ∨ k % 3 = 2 := by omega
    rcases h3 with h | h | h
    · have h1 : (k + 1) % 3 = 1 := by omega
      simp [h, h1, xlButtonOnClick]
    · have h1 : (k + 1) % 3 = 2 := by omega
      simp [h, h1, xlButtonOnClick]
    · have h1 : (k + 1) % 3 = 0 := by omega
      simp [h, h1, xlButtonOnClick]

/-- C29: the click handler of the XL button maps XL to XXL, XXL to XXXL, XXXL to XL and any
other text to XL; from the initial text "XL" the text has period 3 in the number n of
clicks: it is XL, XXL or XXXL according to n mod 3 = 0, 1 or 2. -/
theorem xlButton_text_cycle (n : ℕ) :
    xlButtonOnClick "XL" = "XXL" ∧ xlButtonOnClick "XXL" = "XXXL" ∧
      xlButtonOnClick "XXXL" = "XL" ∧
      (∀ t : String, t ≠ "XL" → t ≠ "XXL" → xlButtonOnClick t = "XL") ∧
      xlButtonInitialText = "XL" ∧
      Nat.iterate xlButtonOnClick (n + 3) xlButtonInitialText
        = Nat.iterate xlButtonOnClick n xlButtonInitialText ∧
      (n % 3 = 0 → Nat.iterate xlButtonOnClick n xlButtonInitialText = "XL") ∧
      (n % 3 = 1 → Nat.iterate xlButtonOnClick n xlButtonInitialText = "XXL") ∧
      (n % 3 = 2 → Nat.iterate xlButtonOnClick n xlButtonInitialText = "XXXL") := by
  refine ⟨by decide, by decide, by decide, ?_, rfl, ?_, ?_, ?_, ?_⟩
  · intro t h1 h2
    simp [xlButtonOnClick, h1, h2]
  · rw [xlButtonOnClick_iterate, xlButtonOnClick_iterate]
    have : (n + 3) % 3 = n % 3 := by omega
    rw [this]
  · intro h
    rw [xlButtonOnClick_iterate]
    simp [h]
  · intro h
    rw [xlButtonOnClick_iterate]
    simp [h]
  · intro h
    rw [xlButtonOnClick_iterate]
    simp [h]

end MainComponent

namespace MainComponent

/-! ## Relative placement after the casts: claims C25 - C27 -/

/-- Truncation toward zero of an integer plus one half. -/
theorem toInt_add_half (n : ℤ) : toInt ((n : ℚ) + 1 / 2) = if 0 ≤ n then n else n + 1 := by
  unfold toInt
  by_cases hn : 0 ≤ n
  · have h0 : (0 : ℚ) ≤ (n : ℚ) + 1 / 2 := by
      have : (0 : ℚ) ≤ (n : ℚ) := by exact_mod_cast hn
      linarith
    rw [if_pos h0, if_pos hn, Int.floor_eq_iff]
    constructor <;> linarith
  · have hn1 : n + 1 ≤ 0 := by omega
    have h0 : ¬ (0 : ℚ) ≤ (n : ℚ) + 1 / 2 := by
      have : ((n + 1 : ℤ) : ℚ) ≤ 0 := by exact_mod_cast hn1
      push_cast at this
      intro h
      linarith
    rw [if_neg h0, if_neg hn, Int.ceil_eq_iff]
    push_cast
    constructor <;> linarith

/-- The bounds of white key `i` after the casts, with `contentX = contentBounds.x`. -/
theorem whiteKeyBounds_eq (W H : ℕ) (i : ℕ) (hi : i < 7) :
    whiteKeyBounds W H i = some
      { x := if 0 ≤ (contentBounds W H).x - 91 + 99 * (i : ℤ)
               then (contentBounds W H).x - 91 + 99 * (i : ℤ)
               else (contentBounds W H).x - 91 + 99 * (i : ℤ) + 1,
        y := (contentBounds W H).y + 88, width := 72, height := 129 } := by
  rw [whiteKeyBounds, whiteKeyArgs_eq W H i hi]
  simp only [Option.map_some', setBounds, scaleFactor_eq, pianoAreaTopLeft,
    pianoContainerOrigX, pianoContainerOrigY]
  have hx : ((contentBounds W H).x : ℚ) + -124 * 1 + 20 * 1 + 27 / 2 * 1
      + (i : ℚ) * (72 + 2 * (27 / 2)) * 1
      = (((contentBounds W H).x - 91 + 99 * (i : ℤ) : ℤ) : ℚ) + 1 / 2 := by
    push_cast
    ring
  have hy : ((contentBounds W H).y : ℚ) + 78 * 1 + 10 * 1
      = (((contentBounds W H).y + 88 : ℤ) : ℚ) := by
    push_cast
    ring
  rw [hx, hy, toInt_add_half, toInt_intCast]
  norm_num [toInt]

/-- C25: for every window size and all white keys i < j (0 <= i < j <= 6, created in the
order C, D, E, F, G, A, B), the bounds after the integer casts have the same y, width and
height, key i is strictly left of key j, and the right edge of key i is at or before the
left edge of key j, so the two do not intersect; this includes rows that straddle x = 0,
where truncation toward zero makes one spacing 98 instead of 99. -/
theorem whiteKeys_ordered_disjoint (W H : ℕ) (i j : ℕ) (hij : i < j) (hj : j < 7) :
    whiteKeyNotes = ["C", "D", "E", "F", "G", "A", "B"] ∧
      whiteKeyNotes.length = whiteKeyCount ∧
      ∃ a b : Rect, whiteKeyBounds W H i = some a ∧ whiteKeyBounds W H j = some b ∧
        a.y = b.y ∧ a.width = b.width ∧ a.height = b.height ∧
        a.x < b.x ∧ a.getRight ≤ b.x ∧ ¬ a.intersects b := by
  refine ⟨rfl, rfl, _, _, whiteKeyBounds_eq W H i (by omega), whiteKeyBounds_eq W H j hj, rfl,
    rfl, rfl, ?_, ?_, ?_⟩
  · simp only
    split_ifs <;> omega
  · simp only [Rect.getRight]
    split_ifs <;> omega
  · simp only [Rect.intersects]
    split_ifs <;> omega

theorem whiteKeys_ordered_disjoint_witness :
    (0 < 1 ∧ 1 < 7) ∧
      ∃ a b : Rect, whiteKeyBounds 600 400 0 = some a ∧ whiteKeyBounds 600 400 1 = some b ∧
        a.y = b.y ∧ a.width = b.width ∧ a.height = b.height ∧
        a.x < b.x ∧ a.getRight ≤ b.x ∧ ¬ a.intersects b :=
  ⟨⟨by decide, by decide⟩,
    (whiteKeys_ordered_disjoint 600 400 0 1 (by decide) (by decide)).2.2⟩

end MainComponent

namespace MainComponent

theorem blackKeysStartX_eq (W H : ℕ) :
    blackKeysStartX W H = (((contentBounds W H).x - 57 : ℤ) : ℚ) := by
  simp only [blackKeysStartX, pianoAreaTopLeft, scaleFactor_eq, pianoContainerOrigX,
    whiteKeysRowPaddingH, blackKeysRowOrigLeft, blackKeysExtraOffset]
  push_cast
  ring

theorem buttonsStartY_eq (W H : ℕ) :
    buttonsStartY W H = (((contentBounds W H).y - 64 : ℤ) : ℚ) := by
  have hc : (contentBounds W H).getCentreY = (contentBounds W H).y + 195 := by
    simp only [Rect.getCentreY, contentBounds_eq]
    rfl
  simp only [buttonsStartY, hc, buttonHeight, buttonSpacing, scaleFactor_eq]
  push_cast
  ring

/-- C26: for every window size the fader lies horizontally between the A# black key
(instance 4, the sixth name) and the plus button, both for the unrounded `setBounds`
arguments and for the bounds after the integer casts: right edge of A# <= left edge of the
fader, and right edge of the fader <= left edge of the plus button. -/
theorem fader_between_aSharp_and_plus (W H : ℕ) :
    ∃ aSharp : FloatRect, (blackKeysRow W H).1.get? 4 = some (4, aSharp) ∧
      blackKeyNotes.get? 5 = some "A#" ∧
      aSharp.x + aSharp.width ≤ (faderArgs W H).x ∧
      (faderArgs W H).x + (faderArgs W H).width ≤ (plusButtonArgs W H).x ∧
      (setBounds aSharp).getRight ≤ (setBounds (faderArgs W H)).x ∧
      (setBounds (faderArgs W H)).getRight ≤ (setBounds (plusButtonArgs W H)).x := by
  rw [blackKeysRow_eq, blackKeyLoop_notes]
  refine ⟨_, rfl, rfl, ?_, ?_, ?_, ?_⟩
  · simp only [faderArgs, buttonsX_eq, blackKeysStartX_eq, scaleFactor_eq]
    push_cast
    linarith
  · simp only [faderArgs, plusButtonArgs, buttonsX_eq, scaleFactor_eq]
    push_cast
    linarith
  · have hx : blackKeysStartX W H + (72 * 1 + 27 / 2 * 1 * 2) + (72 * 1 + 27 / 2 * 1 * 2)
          + 99 * 1 + (72 * 1 + 27 / 2 * 1 * 2) + (72 * 1 + 27 / 2 * 1 * 2) + 27 / 2 * 1
        = (((contentBounds W H).x + 451 : ℤ) : ℚ) + 1 / 2 := by
      simp only [blackKeysStartX_eq]
      push_cast
      ring
    have hf : (faderArgs W H).x = (((contentBounds W H).x + 559 : ℤ) : ℚ) := by
      simp only [faderArgs, buttonsX_eq, scaleFactor_eq]
      push_cast
      ring
    have h72 : toInt (72 * 1) = 72 := by norm_num [toInt]
    simp only [setBounds, Rect.getRight, hf, toInt_intCast, scaleFactor_eq]
    rw [hx, toInt_add_half, h72]
    split_ifs <;> omega
  · have hf : (faderArgs W H).x = (((contentBounds W H).x + 559 : ℤ) : ℚ) := by
      simp only [faderArgs, buttonsX_eq, scaleFactor_eq]
      push_cast
      ring
    have hw : toInt (faderArgs W H).width = 20 := by
      simp only [faderArgs, scaleFactor_eq]
      norm_num [toInt]
    simp only [setBounds, Rect.getRight, hf, hw, plusButtonArgs, buttonsX_eq, toInt_intCast]
    omega

/-- C27: for every window size the plus and minus buttons have the same x, width 40*scale
and height 140*scale; the top of the minus button is the top of the plus button plus
buttonHeight + buttonSpacing = 150*scale, which leaves a gap of 10*scale below the plus
button.  After the integer casts (scale 1) both are 40 x 140 at the same x, 150 apart, with
a gap of 10, and they do not intersect. -/
theorem plus_minus_buttons_stacked (W H : ℕ) :
    ((plusButtonArgs W H).x = (minusButtonArgs W H).x ∧
      (plusButtonArgs W H).width = 40 * scaleFactor W H ∧
      (minusButtonArgs W H).width = 40 * scaleFactor W H ∧
      (plusButtonArgs W H).height = 140 * scaleFactor W H ∧
      (minusButtonArgs W H).height = 140 * scaleFactor W H ∧
      (minusButtonArgs W H).y
        = (plusButtonArgs W H).y + buttonHeight W H + buttonSpacing W H ∧
      (minusButtonArgs W H).y = (plusButtonArgs W H).y + 150 * scaleFactor W H ∧
      (minusButtonArgs W H).y - ((plusButtonArgs W H).y + (plusButtonArgs W H).height)
        = 10 * scaleFactor W H) ∧
    ((setBounds (plusButtonArgs W H)).x = (setBounds (minusButtonArgs W H)).x ∧
      (setBounds (plusButtonArgs W H)).width = 40 ∧
      (setBounds (minusButtonArgs W H)).width = 40 ∧
      (setBounds (plusButtonArgs W H)).height = 140 ∧
      (setBounds (minusButtonArgs W H)).height = 140 ∧
      (setBounds (minusButtonArgs W H)).y = (setBounds (plusButtonArgs W H)).y + 150 ∧
      (setBounds (minusButtonArgs W H)).y
          - ((setBounds (plusButtonArgs W H)).y + (setBounds (plusButtonArgs W H)).height)
        = 10 ∧
      ¬ (setBounds (plusButtonArgs W H)).intersects (setBounds (minusButtonArgs W H))) := by
  have hp : (plusButtonArgs W H).y = (((contentBounds W H).y - 64 : ℤ) : ℚ) := by
    simp only [plusButtonArgs, buttonsStartY_eq]
  have hm : (minusButtonArgs W H).y = (((contentBounds W H).y + 86 : ℤ) : ℚ) := by
    simp only [minusButtonArgs, buttonsStartY_eq, buttonHeight, buttonSpacing, scaleFactor_eq]
    push_cast
    ring
  have hw : toInt (buttonWidth W H) = 40 := by
    simp only [buttonWidth, scaleFactor_eq]
    norm_num [toInt]
  have hh : toInt (buttonHeight W H) = 140 := by
    simp only [buttonHeight, scaleFactor_eq]
    norm_num [toInt]
  refine ⟨⟨rfl, rfl, rfl, rfl, rfl, ?_, ?_, ?_⟩, ⟨rfl, ?_, ?_, ?_, ?_, ?_, ?_, ?_⟩⟩
  · simp only [minusButtonArgs, plusButtonArgs]
  · simp only [minusButtonArgs, plusButtonArgs, buttonHeight, buttonSpacing]
    ring
  · simp only [minusButtonArgs, plusButtonArgs, buttonHeight, buttonSpacing]
    ring
  · simpa only [setBounds, plusButtonArgs] using hw
  · simpa only [setBounds, minusButtonArgs] using hw
  · simpa only [setBounds, plusButtonArgs] using hh
  · simpa only [setBounds, minusButtonArgs] using hh
  · simp only [setBounds, hp, hm, toInt_intCast]
    omega
  · have hh2 : toInt (plusButtonArgs W H).height = 140 := by
      simpa only [plusButtonArgs] using hh
    simp only [setBounds, hp, hm, hh2, toInt_intCast]
    omega
  · have hh2 : toInt (plusButtonArgs W H).height = 140 := by
      simpa only [plusButtonArgs] using hh
    simp only [Rect.intersects, setBounds, hp, hm, hh2, toInt_intCast]
    omega

end MainComponent

namespace SettingsPanelXLComponent

open MainComponent (Rect FloatRect toInt setBounds)

/-! ## The panel layout: claim C28 -/

/-- The fifteen child rectangles of the panel in numbers. -/
theorem resized_eq :
    resized =
      { eyeButton := { x := 56, y := 6, width := 42, height := 42 },
        skinButton := { x := 109, y := 6, width := 42, height := 42 },
        memoryButton := { x := 163, y := 6, width := 42, height := 42 },
        disableButton := { x := 216, y := 6, width := 42, height := 42 },
        bassOffsetButton := { x := 270, y := 6, width := 42, height := 42 },
        instrumentSelector := { x := 323, y := 2, width := 132, height := 50 },
        keyLabel := { x := 466, y := 5, width := 66, height := 16 },
        keyValueLabel := { x := 466, y := 22, width := 66, height := 27 },
        modeSelector := { x := 543, y := 2, width := 88, height := 50 },
        octaveLabel := { x := 642, y := 5, width := 66, height := 16 },
        octaveValueLabel := { x := 642, y := 22, width := 66, height := 27 },
        inversionLabel := { x := 719, y := 5, width := 66, height := 16 },
        inversionValueLabel := { x := 719, y := 22, width := 66, height := 27 },
        chordLabel := { x := 776, y := 5, width := 66, height := 16 },
        chordDisplay := { x := 751, y := 22, width := 132, height := 27 } } := by
  simp only [resized, layoutCircularButton, layoutStackedLabels, setBounds, padding,
    panelHeight, circularButtonSize, comboWidth, comboHeight, comboY, keyWidth, labelHeight,
    valueHeight, totalHeight, labelY, numberWidth]
  norm_num [toInt]

/-- C28, as stated, fails: the INV label (719, 5, 66, 16) and the CHORD label
(776, 5, 66, 16) that `SettingsPanelXLComponent::resized` assigns overlap. -/
theorem inversion_and_chord_labels_overlap :
    resized.inversionLabel = { x := 719, y := 5, width := 66, height := 16 } ∧
      resized.chordLabel = { x := 776, y := 5, width := 66, height := 16 } ∧
      resized.inversionLabel.intersects resized.chordLabel := by
  rw [resized_eq]
  decide

/-- C28, amended: of the fifteen child rectangles that `SettingsPanelXLComponent::resized`
assigns, the only overlapping pairs are the INV label with the CHORD label and the INV
value with the chord display (the CHORD pair is placed 20 and 45 to the left of the
cursor); no other two children overlap. -/
theorem children_overlap_only_in_chord_pair :
    resized.toList.length = 15 ∧
      resized.inversionLabel.intersects resized.chordLabel ∧
      resized.inversionValueLabel.intersects resized.chordDisplay ∧
      resized.toList.Pairwise (fun a b =>
        a.2.intersects b.2 →
          (a.1 = "inversionLabel" ∧ b.1 = "chordLabel") ∨
          (a.1 = "inversionValueLabel" ∧ b.1 = "chordDisplay")) := by
  rw [resized_eq]
  decide

end SettingsPanelXLComponent
